import Mathlib

/-!
# Verification of the logif stored-value card program

A shallow embedding of the Convex backend of the logif repository:
the balance ledger (`convex/transactions.ts`, `convex/cards.ts`), the
API-key rate limiter and request log (`convex/apiKeys.ts`), the webhook
delivery engine (`convex/webhooks.ts`), and the HTTP gateway dispatcher
(`convex/http.ts`).

Conventions of the embedding:
* Timestamps (`Date.now()`) are passed explicitly as an `Int` argument
  named `now`; monetary amounts are `Int` (minor currency units).
* Convex document ids are modelled as `Nat`; each table is a `List` of
  records inside an explicit state structure, with fresh ids drawn from a
  counter.
* A Convex mutation is transactional: a thrown error rolls back all of
  its writes.  A mutation is therefore embedded as a function into
  `Except ErrCode`, where an `error` result leaves the state unchanged.
* JavaScript truthiness tests on optional numbers (`if (x && ...)`)
  are translated faithfully: a present value `0` is falsy.
* SHA-256 hashing is abstracted: lookup hashes are modelled as `Nat`
  values stored in the records and supplied by callers.
-/

set_option linter.unusedVariables false

deriving instance DecidableEq for Except

namespace Logif

/-- Error codes from `convex/lib/errors.ts` (`ErrorCode`). -/
inductive ErrCode where
  | UNAUTHORIZED
  | FORBIDDEN
  | NOT_FOUND
  | VALIDATION_ERROR
  | CONFLICT
  | RATE_LIMITED
  | INSUFFICIENT_BALANCE
  | CARD_INACTIVE
  | CARD_EXPIRED
  | INVALID_AMOUNT
  | INVALID_API_KEY
  | API_KEY_REVOKED
  | PERMISSION_DENIED
  | INTERNAL_ERROR
deriving DecidableEq

/-- Card status values from the `cards` table in `convex/schema.ts`. -/
inductive CardStatus where
  | active
  | inactive
  | suspended
  | expired
  | cancelled
deriving DecidableEq

/-- Transaction types from the `transactions` table. -/
inductive TxnType where
  | load
  | redeem
  | transfer_in
  | transfer_out
  | adjust
  | refund
deriving DecidableEq

/-- Redemption methods recorded on `redeem` transactions. -/
inductive RedemptionMethod where
  | code
  | card_number
  | track_data
  | qr
  | manual
deriving DecidableEq

/-- Merchant member roles from `convex/lib/middleware.ts`. -/
inductive MemberRole where
  | owner
  | admin
  | staff
deriving DecidableEq

/-- The statuses accepted by the `updateStatus` argument validator
(`v.union(v.literal("active"), v.literal("suspended"), v.literal("cancelled"))`). -/
inductive StatusRequest where
  | active
  | suspended
  | cancelled
deriving DecidableEq

/-- Translation of a requested status into a stored card status. -/
def StatusRequest.toCardStatus : StatusRequest → CardStatus
  | .active => .active
  | .suspended => .suspended
  | .cancelled => .cancelled

/-- A document of the `cards` table (fields relevant to the ledger). -/
structure Card where
  id : Nat
  merchantId : Nat
  codeHash : Nat
  trackDataHash : Option Nat
  status : CardStatus
  initialBalance : Int
  currentBalance : Int
  expiresAt : Option Int
  activatedAt : Option Int
  lastUsedAt : Option Int
deriving DecidableEq

/-- A document of the `transactions` table (fields relevant to the ledger). -/
structure Transaction where
  id : Nat
  merchantId : Nat
  cardId : Nat
  ttype : TxnType
  amount : Int
  balanceBefore : Int
  balanceAfter : Int
  redemptionMethod : Option RedemptionMethod
  linkedTransactionId : Option Nat
deriving DecidableEq

/-- The merchant `settings` object consulted by the ledger operations. -/
structure MerchantSettings where
  maxCardBalance : Option Int
  minLoadAmount : Option Int
  maxLoadAmount : Option Int
  defaultCardExpDays : Option Int
deriving DecidableEq

/-- A document of the `merchants` table. -/
structure Merchant where
  id : Nat
  settings : Option MerchantSettings
deriving DecidableEq

/-- The ledger database: merchants, cards and transactions, with counters
supplying fresh document ids. -/
structure LedgerState where
  merchants : List Merchant
  cards : List Card
  txns : List Transaction
  nextCardId : Nat
  nextTxnId : Nat
deriving DecidableEq

-- Defaults from `convex/lib/constants.ts`.

def DEFAULT_MAX_CARD_BALANCE : Int := 100000

def DEFAULT_MIN_LOAD_AMOUNT : Int := 100

def DEFAULT_MAX_LOAD_AMOUNT : Int := 50000

def DEFAULT_CARD_EXP_DAYS : Int := 365

/-- `merchant.settings?.maxCardBalance ?? DEFAULT_MAX_CARD_BALANCE`. -/
def Merchant.maxCardBalanceEff (m : Merchant) : Int :=
  (m.settings.bind MerchantSettings.maxCardBalance).getD DEFAULT_MAX_CARD_BALANCE

/-- `merchant.settings?.minLoadAmount ?? DEFAULT_MIN_LOAD_AMOUNT`. -/
def Merchant.minLoadAmountEff (m : Merchant) : Int :=
  (m.settings.bind MerchantSettings.minLoadAmount).getD DEFAULT_MIN_LOAD_AMOUNT

/-- `merchant.settings?.maxLoadAmount ?? DEFAULT_MAX_LOAD_AMOUNT`. -/
def Merchant.maxLoadAmountEff (m : Merchant) : Int :=
  (m.settings.bind MerchantSettings.maxLoadAmount).getD DEFAULT_MAX_LOAD_AMOUNT

/-- `ctx.db.get(merchantId)` combined with the `withMerchant` existence
check (`notFound("Merchant")`). -/
def findMerchant (s : LedgerState) (mid : Nat) : Option Merchant :=
  s.merchants.find? (fun m => m.id == mid)

/-- `ctx.db.get(cardId)`. -/
def findCard (s : LedgerState) (cid : Nat) : Option Card :=
  s.cards.find? (fun c => c.id == cid)

/-- `ctx.db.get(transactionId)`. -/
def findTxn (s : LedgerState) (tid : Nat) : Option Transaction :=
  s.txns.find? (fun t => t.id == tid)

/-- `ctx.db.patch` on the `cards` table: update the document with the
given id in place. -/
def patchCards (cards : List Card) (cid : Nat) (f : Card → Card) : List Card :=
  cards.map (fun c => if c.id = cid then f c else c)

/-- `ctx.db.patch` on the `transactions` table. -/
def patchTxns (txns : List Transaction) (tid : Nat) (f : Transaction → Transaction) :
    List Transaction :=
  txns.map (fun t => if t.id = tid then f t else t)

/-- `validateCardUsable` from `convex/transactions.ts`: active status and
`card.expiresAt && card.expiresAt <= Date.now()` (JS truthiness: a stored
`expiresAt` of `0` skips the expiry test). -/
def validateCardUsable (card : Card) (now : Int) : Except ErrCode Unit :=
  if card.status ≠ CardStatus.active then .error .CARD_INACTIVE
  else
    match card.expiresAt with
    | some e => if e ≠ 0 ∧ e ≤ now then .error .CARD_EXPIRED else .ok ()
    | none => .ok ()

/-- `recordTransaction` from `convex/transactions.ts`: patch the card's
`currentBalance` and `lastUsedAt`, then insert one transaction whose
`balanceBefore` is the card's balance as read and whose `balanceAfter` is
the new balance. -/
def recordTransaction (s : LedgerState) (now : Int) (card : Card) (ttype : TxnType)
    (amount newBalance : Int) (redemptionMethod : Option RedemptionMethod)
    (linkedTransactionId : Option Nat) : LedgerState × Transaction :=
  let txn : Transaction :=
    { id := s.nextTxnId,
      merchantId := card.merchantId,
      cardId := card.id,
      ttype := ttype,
      amount := amount,
      balanceBefore := card.currentBalance,
      balanceAfter := newBalance,
      redemptionMethod := redemptionMethod,
      linkedTransactionId := linkedTransactionId }
  ({ s with
      cards := patchCards s.cards card.id
        (fun c => { c with currentBalance := newBalance, lastUsedAt := some now }),
      txns := s.txns ++ [txn],
      nextTxnId := s.nextTxnId + 1 }, txn)

/-- `cards.createSingle`: create one card, `currentBalance` starting at
`initialBalance`, status `active`.  Note: the max-balance check here uses
`merchant.settings?.maxCardBalance ?? undefined` (no default). -/
def createSingle (s : LedgerState) (now : Int) (merchantId : Nat)
    (initialBalance : Int) (codeHash : Nat) (trackDataHash : Option Nat)
    (expiresAtArg : Option Int) : Except ErrCode (LedgerState × Card) :=
  match findMerchant s merchantId with
  | none => .error .NOT_FOUND
  | some merchant =>
    if initialBalance < 0 then .error .VALIDATION_ERROR
    else
      match merchant.settings.bind MerchantSettings.maxCardBalance with
      | some maxBalance =>
        if initialBalance > maxBalance then .error .VALIDATION_ERROR
        else .ok (createSingleInsert s now merchantId initialBalance codeHash
          trackDataHash expiresAtArg merchant)
      | none => .ok (createSingleInsert s now merchantId initialBalance codeHash
          trackDataHash expiresAtArg merchant)
where
  /-- The `ctx.db.insert("cards", ...)` step of `createSingle`. -/
  createSingleInsert (s : LedgerState) (now : Int) (merchantId : Nat)
      (initialBalance : Int) (codeHash : Nat) (trackDataHash : Option Nat)
      (expiresAtArg : Option Int) (merchant : Merchant) : LedgerState × Card :=
    let expDays := (merchant.settings.bind MerchantSettings.defaultCardExpDays).getD
      DEFAULT_CARD_EXP_DAYS
    let card : Card :=
      { id := s.nextCardId,
        merchantId := merchantId,
        codeHash := codeHash,
        trackDataHash := trackDataHash,
        status := .active,
        initialBalance := initialBalance,
        currentBalance := initialBalance,
        expiresAt := some (expiresAtArg.getD (now + expDays * 86400000)),
        activatedAt := some now,
        lastUsedAt := none }
    ({ s with cards := s.cards ++ [card], nextCardId := s.nextCardId + 1 }, card)

/-- `transactions.load`: add funds to a card. -/
def load (s : LedgerState) (now : Int) (merchantId cardId : Nat) (amount : Int) :
    Except ErrCode (LedgerState × Transaction) :=
  match findMerchant s merchantId with
  | none => .error .NOT_FOUND
  | some merchant =>
    match findCard s cardId with
    | none => .error .NOT_FOUND
    | some card =>
      if card.merchantId ≠ merchantId then .error .FORBIDDEN
      else
        match validateCardUsable card now with
        | .error e => .error e
        | .ok _ =>
          if amount ≤ 0 then .error .INVALID_AMOUNT
          else if amount < merchant.minLoadAmountEff then .error .INVALID_AMOUNT
          else if amount > merchant.maxLoadAmountEff then .error .INVALID_AMOUNT
          else if card.currentBalance + amount > merchant.maxCardBalanceEff then
            .error .INVALID_AMOUNT
          else
            .ok (recordTransaction s now card .load amount
              (card.currentBalance + amount) none none)

/-- The validation-and-record tail shared verbatim by `transactions.redeem`,
`redeemByCode` and `redeemByTrackData` once the card has been looked up. -/
def redeemResolved (s : LedgerState) (now : Int) (merchantId : Nat) (card : Card)
    (amount : Int) (method : RedemptionMethod) :
    Except ErrCode (LedgerState × Transaction) :=
  if card.merchantId ≠ merchantId then .error .FORBIDDEN
  else
    match validateCardUsable card now with
    | .error e => .error e
    | .ok _ =>
      if amount ≤ 0 then .error .INVALID_AMOUNT
      else if amount > card.currentBalance then .error .INSUFFICIENT_BALANCE
      else
        .ok (recordTransaction s now card .redeem amount
          (card.currentBalance - amount) (some method) none)

/-- `transactions.redeem`: deduct funds, looking the card up by id.  The
recorded redemption method is `manual`. -/
def redeem (s : LedgerState) (now : Int) (merchantId cardId : Nat) (amount : Int) :
    Except ErrCode (LedgerState × Transaction) :=
  match findMerchant s merchantId with
  | none => .error .NOT_FOUND
  | some _ =>
    match findCard s cardId with
    | none => .error .NOT_FOUND
    | some card =>
      redeemResolved s now merchantId card amount .manual

/-- `.unique()` lookup of a card by `codeHash`: exactly one matching
document, otherwise the lookup yields nothing.  (With more than one match
Convex throws; the claims below only concern unique matches.) -/
def findCardByCodeHash (s : LedgerState) (h : Nat) : Option Card :=
  match s.cards.filter (fun c => c.codeHash == h) with
  | [c] => some c
  | _ => none

/-- `.unique()` lookup of a card by `trackDataHash`. -/
def findCardByTrackHash (s : LedgerState) (h : Nat) : Option Card :=
  match s.cards.filter (fun c => c.trackDataHash == some h) with
  | [c] => some c
  | _ => none

/-- `transactions.redeemByCode`: hash the code, look the card up via the
`by_codeHash` index, then run the same validation path as `redeem`. -/
def redeemByCode (s : LedgerState) (now : Int) (merchantId codeHash : Nat)
    (amount : Int) : Except ErrCode (LedgerState × Transaction) :=
  match findMerchant s merchantId with
  | none => .error .NOT_FOUND
  | some _ =>
    match findCardByCodeHash s codeHash with
    | none => .error .NOT_FOUND
    | some card =>
      redeemResolved s now merchantId card amount .code

/-- `transactions.redeemByTrackData`: hash the track data, look the card
up via the `by_trackDataHash` index, then the same validation path. -/
def redeemByTrackData (s : LedgerState) (now : Int) (merchantId trackHash : Nat)
    (amount : Int) : Except ErrCode (LedgerState × Transaction) :=
  match findMerchant s merchantId with
  | none => .error .NOT_FOUND
  | some _ =>
    match findCardByTrackHash s trackHash with
    | none => .error .NOT_FOUND
    | some card =>
      redeemResolved s now merchantId card amount .track_data

/-- `transactions.transfer`: move `amount` between two distinct cards of
one merchant.  Ordering mirrors the source: debit + insert `transfer_out`,
credit + insert `transfer_in` (already linked to the out leg), then patch
the out leg with the in leg's id. -/
def transfer (s : LedgerState) (now : Int) (merchantId fromCardId toCardId : Nat)
    (amount : Int) : Except ErrCode (LedgerState × Transaction × Transaction) :=
  match findMerchant s merchantId with
  | none => .error .NOT_FOUND
  | some merchant =>
    if fromCardId = toCardId then .error .VALIDATION_ERROR
    else
      match findCard s fromCardId with
      | none => .error .NOT_FOUND
      | some fromCard =>
        if fromCard.merchantId ≠ merchantId then .error .FORBIDDEN
        else
          match findCard s toCardId with
          | none => .error .NOT_FOUND
          | some toCard =>
            if toCard.merchantId ≠ merchantId then .error .FORBIDDEN
            else
              match validateCardUsable fromCard now with
              | .error e => .error e
              | .ok _ =>
                match validateCardUsable toCard now with
                | .error e => .error e
                | .ok _ =>
                  if amount ≤ 0 then .error .INVALID_AMOUNT
                  else if amount > fromCard.currentBalance then
                    .error .INSUFFICIENT_BALANCE
                  else if toCard.currentBalance + amount > merchant.maxCardBalanceEff then
                    .error .INVALID_AMOUNT
                  else
                    .ok (transferCommit s now merchantId fromCard toCard amount)
where
  /-- The write sequence of a validated transfer. -/
  transferCommit (s : LedgerState) (now : Int) (merchantId : Nat)
      (fromCard toCard : Card) (amount : Int) :
      LedgerState × Transaction × Transaction :=
    let fromNewBalance := fromCard.currentBalance - amount
    let toNewBalance := toCard.currentBalance + amount
    let outId := s.nextTxnId
    let inId := s.nextTxnId + 1
    let outTxn : Transaction :=
      { id := outId,
        merchantId := merchantId,
        cardId := fromCard.id,
        ttype := .transfer_out,
        amount := amount,
        balanceBefore := fromCard.currentBalance,
        balanceAfter := fromNewBalance,
        redemptionMethod := none,
        linkedTransactionId := none }
    let inTxn : Transaction :=
      { id := inId,
        merchantId := merchantId,
        cardId := toCard.id,
        ttype := .transfer_in,
        amount := amount,
        balanceBefore := toCard.currentBalance,
        balanceAfter := toNewBalance,
        redemptionMethod := none,
        linkedTransactionId := some outId }
    let s1 := { s with
      cards := patchCards s.cards fromCard.id
        (fun c => { c with currentBalance := fromNewBalance, lastUsedAt := some now }),
      txns := s.txns ++ [outTxn],
      nextTxnId := outId + 1 }
    let s2 := { s1 with
      cards := patchCards s1.cards toCard.id
        (fun c => { c with currentBalance := toNewBalance, lastUsedAt := some now }),
      txns := s1.txns ++ [inTxn],
      nextTxnId := inId + 1 }
    let s3 := { s2 with
      txns := patchTxns s2.txns outId
        (fun t => { t with linkedTransactionId := some inId }) }
    (s3, { outTxn with linkedTransactionId := some inId }, inTxn)

/-- `transactions.adjust`: signed manual correction, restricted to
merchant owner or admin.  Does not call `validateCardUsable`. -/
def adjust (s : LedgerState) (now : Int) (memberRole : MemberRole)
    (merchantId cardId : Nat) (amount : Int) :
    Except ErrCode (LedgerState × Transaction) :=
  match findMerchant s merchantId with
  | none => .error .NOT_FOUND
  | some merchant =>
    if memberRole ≠ MemberRole.owner ∧ memberRole ≠ MemberRole.admin then
      .error .FORBIDDEN
    else
      match findCard s cardId with
      | none => .error .NOT_FOUND
      | some card =>
        if card.merchantId ≠ merchantId then .error .FORBIDDEN
        else if amount = 0 then .error .INVALID_AMOUNT
        else if card.currentBalance + amount < 0 then .error .INVALID_AMOUNT
        else if card.currentBalance + amount > merchant.maxCardBalanceEff then
          .error .INVALID_AMOUNT
        else
          .ok (recordTransaction s now card .adjust amount
            (card.currentBalance + amount) none none)

/-- `transactions.refund`: add a redemption's amount back to its card.
Idempotence is enforced by scanning the card's transactions for an
existing `refund` linked to the target.  Does not call
`validateCardUsable`. -/
def refund (s : LedgerState) (now : Int) (merchantId transactionId : Nat) :
    Except ErrCode (LedgerState × Transaction) :=
  match findMerchant s merchantId with
  | none => .error .NOT_FOUND
  | some merchant =>
    match findTxn s transactionId with
    | none => .error .NOT_FOUND
    | some originalTxn =>
      if originalTxn.merchantId ≠ merchantId then .error .FORBIDDEN
      else if originalTxn.ttype ≠ TxnType.redeem then .error .VALIDATION_ERROR
      else if (s.txns.filter (fun t => t.cardId == originalTxn.cardId)).any
          (fun t => decide (t.ttype = TxnType.refund ∧
            t.linkedTransactionId = some transactionId)) then
        .error .VALIDATION_ERROR
      else
        match findCard s originalTxn.cardId with
        | none => .error .NOT_FOUND
        | some card =>
          if card.currentBalance + originalTxn.amount > merchant.maxCardBalanceEff then
            .error .INVALID_AMOUNT
          else
            .ok (recordTransaction s now card .refund originalTxn.amount
              (card.currentBalance + originalTxn.amount) none (some transactionId))

/-- `cards.updateStatus`: status change with the two re-activation
guards; everything else the argument validator admits is accepted. -/
def updateStatus (s : LedgerState) (now : Int) (merchantId cardId : Nat)
    (status : StatusRequest) : Except ErrCode (LedgerState × Card) :=
  match findMerchant s merchantId with
  | none => .error .NOT_FOUND
  | some _ =>
    match findCard s cardId with
    | none => .error .NOT_FOUND
    | some card =>
      if card.merchantId ≠ merchantId then .error .FORBIDDEN
      else if card.status = CardStatus.cancelled ∧ status = StatusRequest.active then
        .error .VALIDATION_ERROR
      else if card.status = CardStatus.expired ∧ status = StatusRequest.active then
        .error .VALIDATION_ERROR
      else
        .ok (updateStatusPatch s now cardId card status)
where
  /-- The patch step: set the status; stamp `activatedAt` when activating
  a card whose `activatedAt` is unset (`!card.activatedAt`, so a stored
  `0` also counts as unset). -/
  updateStatusPatch (s : LedgerState) (now : Int) (cardId : Nat) (card : Card)
      (status : StatusRequest) : LedgerState × Card :=
    let newActivatedAt :=
      if status = StatusRequest.active ∧
          (card.activatedAt = none ∨ card.activatedAt = some 0) then some now
      else card.activatedAt
    let upd : Card → Card := fun c =>
      { c with status := status.toCardStatus, activatedAt := newActivatedAt }
    ({ s with cards := patchCards s.cards cardId upd }, upd card)

/-- `cards.apiUpdateStatus`: the API-key variant; same guards, no
`withMerchant` auth step (the card's merchant is compared directly). -/
def apiUpdateStatus (s : LedgerState) (now : Int) (merchantId cardId : Nat)
    (status : StatusRequest) : Except ErrCode (LedgerState × Card) :=
  match findCard s cardId with
  | none => .error .NOT_FOUND
  | some card =>
    if card.merchantId ≠ merchantId then .error .FORBIDDEN
    else if card.status = CardStatus.cancelled ∧ status = StatusRequest.active then
      .error .VALIDATION_ERROR
    else if card.status = CardStatus.expired ∧ status = StatusRequest.active then
      .error .VALIDATION_ERROR
    else
      .ok (updateStatus.updateStatusPatch s now cardId card status)

/-- One balance-affecting request, together with the card-creation and
status-change requests, quantified over in the sequencing claims. -/
inductive LedgerOp where
  | createCard (merchantId : Nat) (initialBalance : Int) (codeHash : Nat)
      (trackDataHash : Option Nat) (expiresAtArg : Option Int)
  | load (merchantId cardId : Nat) (amount : Int)
  | redeem (merchantId cardId : Nat) (amount : Int)
  | redeemByCode (merchantId codeHash : Nat) (amount : Int)
  | redeemByTrackData (merchantId trackHash : Nat) (amount : Int)
  | transfer (merchantId fromCardId toCardId : Nat) (amount : Int)
  | adjust (role : MemberRole) (merchantId cardId : Nat) (amount : Int)
  | refund (merchantId transactionId : Nat)
deriving DecidableEq

/-- Run one operation, returning the new state on success. -/
def applyOp (s : LedgerState) (now : Int) : LedgerOp → Except ErrCode LedgerState
  | .createCard mid bal ch th ex =>
    match createSingle s now mid bal ch th ex with
    | .error e => .error e
    | .ok (s', _) => .ok s'
  | .load mid cid a =>
    match load s now mid cid a with
    | .error e => .error e
    | .ok (s', _) => .ok s'
  | .redeem mid cid a =>
    match redeem s now mid cid a with
    | .error e => .error e
    | .ok (s', _) => .ok s'
  | .redeemByCode mid h a =>
    match redeemByCode s now mid h a with
    | .error e => .error e
    | .ok (s', _) => .ok s'
  | .redeemByTrackData mid h a =>
    match redeemByTrackData s now mid h a with
    | .error e => .error e
    | .ok (s', _) => .ok s'
  | .transfer mid f t a =>
    match transfer s now mid f t a with
    | .error e => .error e
    | .ok (s', _, _) => .ok s'
  | .adjust role mid cid a =>
    match adjust s now role mid cid a with
    | .error e => .error e
    | .ok (s', _) => .ok s'
  | .refund mid tid =>
    match refund s now mid tid with
    | .error e => .error e
    | .ok (s', _) => .ok s'

/-- Commit semantics of a Convex mutation: a successful run replaces the
state, a thrown error rolls every write back. -/
def commitOp (s : LedgerState) (now : Int) (op : LedgerOp) : LedgerState :=
  match applyOp s now op with
  | .ok s' => s'
  | .error _ => s

/-- A committed sequence of operations, each with its own clock value. -/
def runOps (s : LedgerState) (ops : List (Int × LedgerOp)) : LedgerState :=
  ops.foldl (fun st p => commitOp st p.1 p.2) s

/-! ## Specification-level ledger predicates -/

/-- The signed balance effect of a transaction type: positive for
`load`, `transfer_in`, `refund` and `adjust` (whose stored amount is
itself signed), negative for `redeem` and `transfer_out`. -/
def signedOf (ty : TxnType) (amount : Int) : Int :=
  match ty with
  | .load => amount
  | .redeem => -amount
  | .transfer_in => amount
  | .transfer_out => -amount
  | .adjust => amount
  | .refund => amount

/-- The signed amount of a ledger entry. -/
def signedAmount (t : Transaction) : Int :=
  signedOf t.ttype t.amount

/-- Signed sum of all committed transactions on one card. -/
def cardLedgerSum (txns : List Transaction) (cid : Nat) : Int :=
  ((txns.filter (fun t => t.cardId == cid)).map signedAmount).sum

/-- The balance of a card as stored, if the card exists. -/
def cardBalance (s : LedgerState) (cid : Nat) : Option Int :=
  (findCard s cid).map Card.currentBalance

/-- Every card's `currentBalance` equals its `initialBalance` plus the
signed sum of the committed transactions on it. -/
def BalanceInvariant (s : LedgerState) : Prop :=
  ∀ c ∈ s.cards, c.currentBalance = c.initialBalance + cardLedgerSum s.txns c.id

instance : DecidablePred BalanceInvariant := fun s => by
  unfold BalanceInvariant; infer_instance

/-- Structural well-formedness of the ledger database: document ids are
unique and below the freshness counters, transactions reference existing
id ranges, and every `refund` entry lives on the card of the transaction
it is linked to. -/
def WellFormed (s : LedgerState) : Prop :=
  (s.cards.map Card.id).Nodup ∧
  (∀ c ∈ s.cards, c.id < s.nextCardId) ∧
  (s.txns.map Transaction.id).Nodup ∧
  (∀ t ∈ s.txns, t.id < s.nextTxnId) ∧
  (∀ t ∈ s.txns, t.cardId < s.nextCardId) ∧
  (∀ t ∈ s.txns, t.ttype = TxnType.refund →
    ∀ tid, t.linkedTransactionId = some tid →
      ∃ o ∈ s.txns, o.id = tid ∧ o.cardId = t.cardId)

instance : DecidablePred WellFormed := fun s => by
  unfold WellFormed; infer_instance

/-- The number of `refund` transactions linked to a given transaction id. -/
def refundCount (s : LedgerState) (tid : Nat) : Nat :=
  (s.txns.filter (fun t => decide (t.ttype = TxnType.refund ∧
    t.linkedTransactionId = some tid))).length

/-- At most one refund ever links to any given transaction. -/
def RefundUnique (s : LedgerState) : Prop :=
  ∀ tid, refundCount s tid ≤ 1

/-- The combined ledger invariant carried through op sequences. -/
def Inv (s : LedgerState) : Prop :=
  WellFormed s ∧ BalanceInvariant s ∧ RefundUnique s

/-! ## Rate limiter, API keys and the request log (`convex/apiKeys.ts`) -/

/-- Rate-limit window granularities. -/
inductive WindowType where
  | minute
  | day
deriving DecidableEq

/-- A document of the `apiKeyRateLimits` table. -/
structure RateLimitWindow where
  apiKeyId : Nat
  windowType : WindowType
  windowStart : Int
  count : Int
deriving DecidableEq

/-- API key status. -/
inductive KeyStatus where
  | active
  | revoked
deriving DecidableEq

/-- A document of the `apiKeys` table (fields used by the gateway). -/
structure ApiKeyDoc where
  id : Nat
  keyHash : Nat
  merchantId : Option Nat
  permissions : List String
  status : KeyStatus
  expiresAt : Option Int
  rateLimitPerMinute : Int
  rateLimitPerDay : Int
  lastUsedAt : Option Int
deriving DecidableEq

/-- A document of the `apiRequestLogs` table. -/
structure RequestLog where
  apiKeyId : Nat
  merchantId : Option Nat
  method : String
  path : String
  statusCode : Int
  durationMs : Int
  errorMessage : Option String
deriving DecidableEq

/-- The gateway-side database: keys, rate-limit windows and request logs. -/
structure GatewayState where
  apiKeys : List ApiKeyDoc
  rateLimits : List RateLimitWindow
  logs : List RequestLog
deriving DecidableEq

/-- The result object returned by `apiKeys.checkRateLimit`. -/
structure RateLimitResult where
  allowed : Bool
  remaining : Int
  limit : Int
  resetAt : Int
deriving DecidableEq

/-- Window length in milliseconds: `60 * 1000` for minute, `24 * 60 *
60 * 1000` for day. -/
def windowDurationMs : WindowType → Int
  | .minute => 60000
  | .day => 86400000

/-- `Math.floor(now / windowDurationMs) * windowDurationMs`. -/
def windowStartOf (wt : WindowType) (now : Int) : Int :=
  (Int.fdiv now (windowDurationMs wt)) * windowDurationMs wt

/-- `ctx.db.get(apiKeyId)` on the `apiKeys` table. -/
def findApiKey (s : GatewayState) (kid : Nat) : Option ApiKeyDoc :=
  s.apiKeys.find? (fun k => k.id == kid)

/-- The `.unique()` lookup of the (key, windowType, windowStart) counter. -/
def findWindow (s : GatewayState) (kid : Nat) (wt : WindowType) (ws : Int) :
    Option RateLimitWindow :=
  s.rateLimits.find? (fun w => decide (w.apiKeyId = kid ∧ w.windowType = wt ∧
    w.windowStart = ws))

/-- The limit the code selects for a window type:
`rateLimitPerMinute` for minute windows, `rateLimitPerDay` for day
windows. -/
def limitOf (k : ApiKeyDoc) : WindowType → Int
  | .minute => k.rateLimitPerMinute
  | .day => k.rateLimitPerDay

/-- `apiKeys.checkRateLimit`: fixed-window counting.  Absent counter:
create with count 1 and allow; present with `count < limit`: increment
and allow; present with `count ≥ limit`: deny without incrementing. -/
def checkRateLimit (s : GatewayState) (now : Int) (apiKeyId : Nat) (wt : WindowType) :
    GatewayState × RateLimitResult :=
  match findApiKey s apiKeyId with
  | none => (s, { allowed := false, remaining := 0, limit := 0, resetAt := 0 })
  | some apiKey =>
    let ws := windowStartOf wt now
    let resetAt := ws + windowDurationMs wt
    let limit := limitOf apiKey wt
    match findWindow s apiKeyId wt ws with
    | some existing =>
      if existing.count ≥ limit then
        (s, { allowed := false, remaining := 0, limit := limit, resetAt := resetAt })
      else
        ({ s with rateLimits := s.rateLimits.map (fun w =>
            if w.apiKeyId = apiKeyId ∧ w.windowType = wt ∧ w.windowStart = ws then
              { w with count := w.count + 1 }
            else w) },
          { allowed := true, remaining := limit - existing.count - 1,
            limit := limit, resetAt := resetAt })
    | none =>
      ({ s with rateLimits := s.rateLimits ++
          [{ apiKeyId := apiKeyId, windowType := wt, windowStart := ws, count := 1 }] },
        { allowed := true, remaining := limit - 1, limit := limit, resetAt := resetAt })

/-- `apiKeys.logRequest`: insert one request-log document. -/
def logRequest (s : GatewayState) (entry : RequestLog) : GatewayState :=
  { s with logs := s.logs ++ [entry] }

/-- The count stored for a (key, windowType, windowStart) triple, zero if
the window does not exist yet. -/
def windowCount (s : GatewayState) (kid : Nat) (wt : WindowType) (ws : Int) : Int :=
  ((findWindow s kid wt ws).map RateLimitWindow.count).getD 0

/-- `n` consecutive minute-window checks for one key at a fixed clock
value, keeping only the evolving state. -/
def iterateChecks (s : GatewayState) (now : Int) (kid : Nat) : Nat → GatewayState
  | 0 => s
  | n + 1 => (checkRateLimit (iterateChecks s now kid n) now kid .minute).1

/-! ## Gateway dispatch (`convex/http.ts`) -/

/-- The characters of the literal `"Bearer "`.  Raw header text is
modelled as `List Char` so that the prefix tests and the
`substring(7)` of `dispatchRoute` stay fully computable. -/
def BEARER_CHARS : List Char := ['B', 'e', 'a', 'r', 'e', 'r', ' ']

/-- The characters of the literal `"lgf_"`. -/
def LGF_CHARS : List Char := ['l', 'g', 'f', '_']

def STR_RATE_LIMIT_MSG : String := "Rate limit exceeded"

def STR_DAILY_RATE_LIMIT_MSG : String := "Daily rate limit exceeded"

def STR_MISSING_PERMISSION : String := "Missing permission"

def STR_HANDLER_ERROR : String := "handler error"

/-- `errorCodeToStatus` from `convex/http.ts`. -/
def errorCodeToStatus (code : ErrCode) : Int :=
  match code with
  | .UNAUTHORIZED => 401
  | .INVALID_API_KEY => 401
  | .API_KEY_REVOKED => 401
  | .FORBIDDEN => 403
  | .PERMISSION_DENIED => 403
  | .NOT_FOUND => 404
  | .CONFLICT => 409
  | .VALIDATION_ERROR => 400
  | .INVALID_AMOUNT => 400
  | .RATE_LIMITED => 429
  | .INSUFFICIENT_BALANCE => 422
  | .CARD_INACTIVE => 422
  | .CARD_EXPIRED => 422
  | .INTERNAL_ERROR => 500

/-- `hasPermission` from `convex/lib/permissions.ts`:
`grantedPermissions.includes(requiredPermission)`. -/
def hasPermission (granted : List String) (required : String) : Bool :=
  granted.contains required

/-- `apiKeys.validateKey`: hash the presented key, look it up by hash,
reject revoked or expired keys (`apiKey.expiresAt && apiKey.expiresAt <
Date.now()`), stamp `lastUsedAt`, and return the key document. -/
def validateKey (s : GatewayState) (now : Int) (keyHash : Nat) :
    Except ErrCode (GatewayState × ApiKeyDoc) :=
  match s.apiKeys.find? (fun k => k.keyHash == keyHash) with
  | none => .error .UNAUTHORIZED
  | some apiKey =>
    if apiKey.status = KeyStatus.revoked then .error .UNAUTHORIZED
    else if (match apiKey.expiresAt with
        | some e => decide (e ≠ 0 ∧ e < now)
        | none => false) then .error .UNAUTHORIZED
    else
      .ok ({ s with apiKeys := s.apiKeys.map (fun k =>
          if k.id = apiKey.id then { k with lastUsedAt := some now } else k) },
        apiKey)

/-- What the matched route's underlying operation would do: either a
success with an HTTP status (`result.status ?? 200`) or a thrown error. -/
inductive HandlerOutcome where
  | ok (status : Int)
  | err (code : ErrCode)
deriving DecidableEq

/-- An inbound HTTP request as seen by `dispatchRoute` after route
matching: the matched route's required permission (`none` for public
routes) and the behaviour of the matched handler. -/
structure GatewayRequest where
  method : String
  path : String
  authHeader : Option (List Char)
  routePermission : Option String
  outcome : HandlerOutcome
deriving DecidableEq

/-- The response as far as the claims are concerned: the HTTP status. -/
structure GatewayResponse where
  status : Int
deriving DecidableEq

/-- The log entry written by `dispatchRoute` for an authenticated
request. -/
def mkLogEntry (apiKey : ApiKeyDoc) (req : GatewayRequest) (statusCode : Int)
    (durationMs : Int) (errorMessage : Option String) : RequestLog :=
  { apiKeyId := apiKey.id,
    merchantId := apiKey.merchantId,
    method := req.method,
    path := req.path,
    statusCode := statusCode,
    durationMs := durationMs,
    errorMessage := errorMessage }

/-- `dispatchRoute` from `convex/http.ts`, from the point where a route
has been matched: public routes run without auth or logging; for
authenticated routes the order is bearer-header check, key-format check,
key validation, minute rate limit, day rate limit, permission check,
handler, with a request log written on every outcome from the first
rate-limit check onward.  `hash` abstracts `sha256` on the presented key
string. -/
def dispatchRoute (hash : List Char → Nat) (s : GatewayState) (now : Int)
    (req : GatewayRequest) : GatewayState × GatewayResponse :=
  let startTime := now
  match req.routePermission with
  | none =>
    match req.outcome with
    | .ok st => (s, { status := st })
    | .err code => (s, { status := errorCodeToStatus code })
  | some requiredPermission =>
    match req.authHeader with
    | none => (s, { status := 401 })
    | some authHeader =>
      if ¬ BEARER_CHARS.isPrefixOf authHeader then (s, { status := 401 })
      else
        let keyString := authHeader.drop 7
        if ¬ LGF_CHARS.isPrefixOf keyString then (s, { status := 401 })
        else
          match validateKey s now (hash keyString) with
          | .error e => (s, { status := errorCodeToStatus e })
          | .ok (s1, apiKey) =>
            let minuteChecked := checkRateLimit s1 now apiKey.id .minute
            if ¬ minuteChecked.2.allowed then
              (logRequest minuteChecked.1 (mkLogEntry apiKey req 429
                (now - startTime) (some STR_RATE_LIMIT_MSG)), { status := 429 })
            else
              let dayChecked := checkRateLimit minuteChecked.1 now apiKey.id .day
              if ¬ dayChecked.2.allowed then
                (logRequest dayChecked.1 (mkLogEntry apiKey req 429
                  (now - startTime) (some STR_DAILY_RATE_LIMIT_MSG)), { status := 429 })
              else
                if ¬ hasPermission apiKey.permissions requiredPermission then
                  (logRequest dayChecked.1 (mkLogEntry apiKey req 403
                    (now - startTime) (some STR_MISSING_PERMISSION)), { status := 403 })
                else
                  match req.outcome with
                  | .ok st =>
                    (logRequest dayChecked.1 (mkLogEntry apiKey req st
                      (now - startTime) none), { status := st })
                  | .err code =>
                    (logRequest dayChecked.1 (mkLogEntry apiKey req
                      (errorCodeToStatus code) (now - startTime)
                      (some STR_HANDLER_ERROR)), { status := errorCodeToStatus code })

/-! ## Webhook delivery engine (`convex/webhooks.ts`) -/

def WEBHOOK_MAX_RETRIES : Nat := 5

def WEBHOOK_AUTO_DISABLE_THRESHOLD : Nat := 10

/-- Webhook endpoint status. -/
inductive EndpointStatus where
  | active
  | disabled
deriving DecidableEq

/-- Webhook delivery status. -/
inductive DeliveryStatus where
  | pending
  | delivered
  | failed
deriving DecidableEq

/-- A document of the `webhookEndpoints` table. -/
structure WebhookEndpoint where
  id : Nat
  merchantId : Option Nat
  events : List String
  status : EndpointStatus
  failureCount : Nat
  lastDeliveredAt : Option Int
deriving DecidableEq

/-- A document of the `webhookDeliveries` table. -/
structure WebhookDelivery where
  id : Nat
  endpointId : Nat
  event : String
  status : DeliveryStatus
  attempts : Nat
  nextRetryAt : Option Int
  lastAttemptAt : Option Int
deriving DecidableEq

/-- The webhook-side database. -/
structure WebhookState where
  endpoints : List WebhookEndpoint
  deliveries : List WebhookDelivery
  nextDeliveryId : Nat
deriving DecidableEq

/-- `ctx.db.get` on `webhookEndpoints`. -/
def findEndpoint (s : WebhookState) (eid : Nat) : Option WebhookEndpoint :=
  s.endpoints.find? (fun ep => ep.id == eid)

/-- `ctx.db.get` on `webhookDeliveries`. -/
def findDelivery (s : WebhookState) (did : Nat) : Option WebhookDelivery :=
  s.deliveries.find? (fun d => d.id == did)

/-- `ctx.db.patch` on `webhookDeliveries`. -/
def patchDeliveries (ds : List WebhookDelivery) (did : Nat)
    (f : WebhookDelivery → WebhookDelivery) : List WebhookDelivery :=
  ds.map (fun d => if d.id = did then f d else d)

/-- `ctx.db.patch` on `webhookEndpoints`. -/
def patchEndpoints (eps : List WebhookEndpoint) (eid : Nat)
    (f : WebhookEndpoint → WebhookEndpoint) : List WebhookEndpoint :=
  eps.map (fun ep => if ep.id = eid then f ep else ep)

/-- `webhooks.dispatch`: for every active endpoint of the merchant that
subscribes to the event, insert one `pending` delivery with zero
attempts; returns the new state and the number dispatched. -/
def dispatchStep (event : String) (acc : WebhookState × Nat)
    (ep : WebhookEndpoint) : WebhookState × Nat :=
  if ep.status ≠ EndpointStatus.active then acc
  else if ¬ ep.events.contains event then acc
  else
    ({ acc.1 with
        deliveries := acc.1.deliveries ++
          [{ id := acc.1.nextDeliveryId, endpointId := ep.id, event := event,
             status := .pending, attempts := 0, nextRetryAt := none,
             lastAttemptAt := none }],
        nextDeliveryId := acc.1.nextDeliveryId + 1 }, acc.2 + 1)

def dispatch (s : WebhookState) (event : String) (merchantId : Nat) :
    WebhookState × Nat :=
  (s.endpoints.filter (fun ep => ep.merchantId == some merchantId)).foldl
    (dispatchStep event) (s, 0)

/-- `webhooks.updateDeliveryStatus`: record the outcome of one delivery
attempt.  On success the delivery becomes `delivered` and the endpoint's
`failureCount` resets to zero with `lastDeliveredAt` stamped.  On failure
the attempt counter increments; below `WEBHOOK_MAX_RETRIES` a retry is
scheduled `newAttempts² minutes` out, at or above it the delivery is left
permanently `failed` (the stale `nextRetryAt` is not cleared here — the
`retryFailed` guard skips such deliveries); the endpoint's `failureCount`
increments and at `WEBHOOK_AUTO_DISABLE_THRESHOLD` the endpoint is
disabled. -/
def updateDeliveryStatus (s : WebhookState) (now : Int) (deliveryId endpointId : Nat)
    (success : Bool) : WebhookState :=
  match findDelivery s deliveryId with
  | none => s
  | some delivery =>
    match findEndpoint s endpointId with
    | none => s
    | some endpoint =>
      if success then
        let fd : WebhookDelivery → WebhookDelivery := fun d =>
          { d with status := .delivered, lastAttemptAt := some now }
        let fe : WebhookEndpoint → WebhookEndpoint := fun ep =>
          { ep with failureCount := 0, lastDeliveredAt := some now }
        { s with deliveries := patchDeliveries s.deliveries deliveryId fd,
                 endpoints := patchEndpoints s.endpoints endpointId fe }
      else
        let newAttempts := delivery.attempts + 1
        let fd : WebhookDelivery → WebhookDelivery :=
          if newAttempts ≥ WEBHOOK_MAX_RETRIES then
            fun d =>
              { d with status := .failed, attempts := newAttempts,
                       lastAttemptAt := some now }
          else
            fun d =>
              { d with status := .failed, attempts := newAttempts,
                       lastAttemptAt := some now,
                       nextRetryAt := some (now + (newAttempts : Int) ^ 2 * 60000) }
        let newFailureCount := endpoint.failureCount + 1
        let fe : WebhookEndpoint → WebhookEndpoint :=
          if newFailureCount ≥ WEBHOOK_AUTO_DISABLE_THRESHOLD then
            fun ep => { ep with failureCount := newFailureCount, status := .disabled }
          else
            fun ep => { ep with failureCount := newFailureCount }
        { s with deliveries := patchDeliveries s.deliveries deliveryId fd,
                 endpoints := patchEndpoints s.endpoints endpointId fe }

/-- The selection predicate of `retryFailed`: status `failed` and
`nextRetryAt <= now` (a missing `nextRetryAt` sorts below every value in
the index and is therefore selected too). -/
def dueForRetry (now : Int) (d : WebhookDelivery) : Bool :=
  decide (d.status = DeliveryStatus.failed) &&
    (match d.nextRetryAt with
     | none => true
     | some t => decide (t ≤ now))

/-- `webhooks.retryFailed`: select up to 50 due deliveries; skip (and
de-queue) deliveries that exhausted `WEBHOOK_MAX_RETRIES` and deliveries
whose endpoint is missing or not active; reset the rest to `pending` and
schedule `deliverWebhook` for them.  Returns the new state and the
delivery ids scheduled. -/
def retryStep (acc : WebhookState × List Nat) (delivery : WebhookDelivery) :
    WebhookState × List Nat :=
  let clearRetry : WebhookDelivery → WebhookDelivery := fun d =>
    { d with nextRetryAt := none }
  let toPending : WebhookDelivery → WebhookDelivery := fun d =>
    { d with status := .pending, nextRetryAt := none }
  if delivery.attempts ≥ WEBHOOK_MAX_RETRIES then
    ({ acc.1 with
        deliveries := patchDeliveries acc.1.deliveries delivery.id clearRetry },
      acc.2)
  else
    match findEndpoint acc.1 delivery.endpointId with
    | none =>
      ({ acc.1 with
          deliveries := patchDeliveries acc.1.deliveries delivery.id clearRetry },
        acc.2)
    | some endpoint =>
      if endpoint.status ≠ EndpointStatus.active then
        ({ acc.1 with
            deliveries := patchDeliveries acc.1.deliveries delivery.id clearRetry },
          acc.2)
      else
        ({ acc.1 with
            deliveries := patchDeliveries acc.1.deliveries delivery.id toPending },
          acc.2 ++ [delivery.id])

def retryFailed (s : WebhookState) (now : Int) : WebhookState × List Nat :=
  ((s.deliveries.filter (dueForRetry now)).take 50).foldl retryStep (s, [])

/-! ## Concrete sample data

Small concrete databases used to evaluate the theorems below on closed
inputs.  The balances follow the worked scenario of the specification
(a card issued at 2500 cents, loaded 500, redeemed 1000, refunded). -/

def merchant0 : Merchant := { id := 0, settings := none }

def card0 : Card :=
  { id := 0, merchantId := 0, codeHash := 11, trackDataHash := some 21,
    status := .active, initialBalance := 2500, currentBalance := 2500,
    expiresAt := none, activatedAt := some 5, lastUsedAt := none }

def card1 : Card :=
  { id := 1, merchantId := 0, codeHash := 12, trackDataHash := some 22,
    status := .active, initialBalance := 1000, currentBalance := 1000,
    expiresAt := none, activatedAt := some 5, lastUsedAt := none }

def card2 : Card :=
  { id := 2, merchantId := 0, codeHash := 13, trackDataHash := none,
    status := .suspended, initialBalance := 500, currentBalance := 500,
    expiresAt := none, activatedAt := some 5, lastUsedAt := none }

def card3 : Card :=
  { id := 3, merchantId := 0, codeHash := 14, trackDataHash := none,
    status := .cancelled, initialBalance := 0, currentBalance := 0,
    expiresAt := none, activatedAt := some 5, lastUsedAt := none }

def sampleLedger : LedgerState :=
  { merchants := [merchant0], cards := [card0, card1, card2, card3],
    txns := [], nextCardId := 4, nextTxnId := 0 }

def txnLoad0 : Transaction :=
  { id := 0, merchantId := 0, cardId := 0, ttype := .load, amount := 500,
    balanceBefore := 2500, balanceAfter := 3000, redemptionMethod := none,
    linkedTransactionId := none }

def txnRedeem0 : Transaction :=
  { id := 1, merchantId := 0, cardId := 0, ttype := .redeem, amount := 1000,
    balanceBefore := 3000, balanceAfter := 2000, redemptionMethod := some .manual,
    linkedTransactionId := none }

/-- `card0` after loading 500 and redeeming 1000. -/
def card0r : Card :=
  { card0 with currentBalance := 2000, lastUsedAt := some 7 }

/-- The state after loading 500 and redeeming 1000 on `card0`. -/
def refundLedger : LedgerState :=
  { merchants := [merchant0],
    cards := [card0r, card1, card2, card3],
    txns := [txnLoad0, txnRedeem0], nextCardId := 4, nextTxnId := 2 }

def sampleOps : List (Int × LedgerOp) :=
  [(10, .load 0 0 500), (11, .redeem 0 0 1000), (12, .transfer 0 0 1 300),
   (13, .adjust .owner 0 1 (-100)), (14, .refund 0 1)]

def PERM_CARDS_READ : String := "cards:read"

def PERM_CARDS_REDEEM : String := "cards:redeem"

def STR_GET : String := "GET"

def STR_CARDS_PATH : String := "/api/v1/cards"

def apiKey0 : ApiKeyDoc :=
  { id := 0, keyHash := 100, merchantId := some 0,
    permissions := [PERM_CARDS_READ], status := .active, expiresAt := none,
    rateLimitPerMinute := 2, rateLimitPerDay := 1000, lastUsedAt := none }

/-- A representable key with a per-minute limit of zero
(`create` stores `args.rateLimitPerMinute ?? DEFAULT`, and `0` is not
nullish). -/
def apiKeyZeroLimit : ApiKeyDoc :=
  { id := 1, keyHash := 101, merchantId := some 0,
    permissions := [PERM_CARDS_READ], status := .active, expiresAt := none,
    rateLimitPerMinute := 0, rateLimitPerDay := 1000, lastUsedAt := none }

def sampleGateway : GatewayState :=
  { apiKeys := [apiKey0, apiKeyZeroLimit], rateLimits := [], logs := [] }

/-- The characters of `"Bearer lgf_key"`. -/
def sampleAuthChars : List Char := BEARER_CHARS ++ LGF_CHARS ++ ['k', 'e', 'y']

/-- A concrete stand-in for `sha256` on the presented key string. -/
def sampleHash : List Char → Nat := fun _ => 100

def sampleRequest : GatewayRequest :=
  { method := STR_GET, path := STR_CARDS_PATH,
    authHeader := some sampleAuthChars,
    routePermission := some PERM_CARDS_READ, outcome := .ok 200 }

/-- The same request against a route whose capability the key lacks. -/
def sampleRequestDenied : GatewayRequest :=
  { sampleRequest with routePermission := some PERM_CARDS_REDEEM }

def EV_CARD_LOADED : String := "card.loaded"

def endpoint0 : WebhookEndpoint :=
  { id := 0, merchantId := some 0, events := [EV_CARD_LOADED],
    status := .active, failureCount := 0, lastDeliveredAt := none }

def endpoint1 : WebhookEndpoint :=
  { id := 1, merchantId := some 0, events := [EV_CARD_LOADED],
    status := .disabled, failureCount := 3, lastDeliveredAt := none }

def delivery0 : WebhookDelivery :=
  { id := 0, endpointId := 0, event := EV_CARD_LOADED, status := .pending,
    attempts := 0, nextRetryAt := none, lastAttemptAt := none }

def sampleWebhooks : WebhookState :=
  { endpoints := [endpoint0, endpoint1], deliveries := [delivery0],
    nextDeliveryId := 1 }

/-! ## Shared lemmas about the redeem validation path -/

theorem redeemResolved_err_unusable (s : LedgerState) (now : Int) (mid : Nat)
    (card : Card) (amount : Int) (method : RedemptionMethod) (e : ErrCode)
    (hown : card.merchantId = mid)
    (hbad : validateCardUsable card now = .error e) :
    redeemResolved s now mid card amount method = .error e := by
  unfold redeemResolved
  rw [if_neg (by simp [hown])]
  simp [hbad]

theorem redeemResolved_err_nonpos (s : LedgerState) (now : Int) (mid : Nat)
    (card : Card) (amount : Int) (method : RedemptionMethod)
    (hown : card.merchantId = mid)
    (husable : validateCardUsable card now = .ok ())
    (hnp : amount ≤ 0) :
    redeemResolved s now mid card amount method = .error .INVALID_AMOUNT := by
  unfold redeemResolved
  rw [if_neg (by simp [hown])]
  simp [husable, hnp]

theorem redeemResolved_err_insufficient (s : LedgerState) (now : Int) (mid : Nat)
    (card : Card) (amount : Int) (method : RedemptionMethod)
    (hown : card.merchantId = mid)
    (husable : validateCardUsable card now = .ok ())
    (hpos : 0 < amount) (hgt : card.currentBalance < amount) :
    redeemResolved s now mid card amount method = .error .INSUFFICIENT_BALANCE := by
  unfold redeemResolved
  rw [if_neg (by simp [hown])]
  simp only [husable]
  rw [if_neg (by omega), if_pos (by omega)]

theorem commitOp_eq_of_err (s : LedgerState) (now : Int) (op : LedgerOp) (e : ErrCode)
    (h : applyOp s now op = .error e) : commitOp s now op = s := by
  simp [commitOp, h]

/-! ## Claim C4 — insufficient-balance and non-positive redeems -/

/-- C4: a redeem attempt — by card id, by hashed code, or by hashed
track data — on a usable card of the merchant, for an amount strictly
greater than `currentBalance`, fails with `INSUFFICIENT_BALANCE`; an
amount `≤ 0` fails with `INVALID_AMOUNT` before the balance test.  In
both cases no transaction is created and the state (hence the balance)
is unchanged. -/
theorem c4_redeem_insufficient_or_nonpositive
    (s : LedgerState) (now : Int) (mid cid codeHash trackHash : Nat)
    (amount : Int) (m : Merchant) (card : Card)
    (hm : findMerchant s mid = some m)
    (hown : card.merchantId = mid)
    (husable : validateCardUsable card now = .ok ())
    (hnonneg : 0 ≤ card.currentBalance) :
    (findCard s cid = some card →
      (card.currentBalance < amount →
        redeem s now mid cid amount = .error .INSUFFICIENT_BALANCE ∧
        commitOp s now (.redeem mid cid amount) = s) ∧
      (amount ≤ 0 →
        redeem s now mid cid amount = .error .INVALID_AMOUNT ∧
        commitOp s now (.redeem mid cid amount) = s)) ∧
    (findCardByCodeHash s codeHash = some card →
      (card.currentBalance < amount →
        redeemByCode s now mid codeHash amount = .error .INSUFFICIENT_BALANCE ∧
        commitOp s now (.redeemByCode mid codeHash amount) = s) ∧
      (amount ≤ 0 →
        redeemByCode s now mid codeHash amount = .error .INVALID_AMOUNT ∧
        commitOp s now (.redeemByCode mid codeHash amount) = s)) ∧
    (findCardByTrackHash s trackHash = some card →
      (card.currentBalance < amount →
        redeemByTrackData s now mid trackHash amount = .error .INSUFFICIENT_BALANCE ∧
        commitOp s now (.redeemByTrackData mid trackHash amount) = s) ∧
      (amount ≤ 0 →
        redeemByTrackData s now mid trackHash amount = .error .INVALID_AMOUNT ∧
        commitOp s now (.redeemByTrackData mid trackHash amount) = s)) := by
  refine ⟨fun hc => ⟨fun hgt => ?_, fun hnp => ?_⟩,
    fun hc => ⟨fun hgt => ?_, fun hnp => ?_⟩,
    fun hc => ⟨fun hgt => ?_, fun hnp => ?_⟩⟩
  · have hr := redeemResolved_err_insufficient s now mid card amount .manual
      hown husable (by omega) hgt
    have h1 : redeem s now mid cid amount = .error .INSUFFICIENT_BALANCE := by
      simp [redeem, hm, hc, hr]
    exact ⟨h1, commitOp_eq_of_err _ _ _ .INSUFFICIENT_BALANCE (by simp [applyOp, h1])⟩
  · have hr := redeemResolved_err_nonpos s now mid card amount .manual
      hown husable hnp
    have h1 : redeem s now mid cid amount = .error .INVALID_AMOUNT := by
      simp [redeem, hm, hc, hr]
    exact ⟨h1, commitOp_eq_of_err _ _ _ .INVALID_AMOUNT (by simp [applyOp, h1])⟩
  · have hr := redeemResolved_err_insufficient s now mid card amount .code
      hown husable (by omega) hgt
    have h1 : redeemByCode s now mid codeHash amount = .error .INSUFFICIENT_BALANCE := by
      simp [redeemByCode, hm, hc, hr]
    exact ⟨h1, commitOp_eq_of_err _ _ _ .INSUFFICIENT_BALANCE (by simp [applyOp, h1])⟩
  · have hr := redeemResolved_err_nonpos s now mid card amount .code
      hown husable hnp
    have h1 : redeemByCode s now mid codeHash amount = .error .INVALID_AMOUNT := by
      simp [redeemByCode, hm, hc, hr]
    exact ⟨h1, commitOp_eq_of_err _ _ _ .INVALID_AMOUNT (by simp [applyOp, h1])⟩
  · have hr := redeemResolved_err_insufficient s now mid card amount .track_data
      hown husable (by omega) hgt
    have h1 : redeemByTrackData s now mid trackHash amount =
        .error .INSUFFICIENT_BALANCE := by
      simp [redeemByTrackData, hm, hc, hr]
    exact ⟨h1, commitOp_eq_of_err _ _ _ .INSUFFICIENT_BALANCE (by simp [applyOp, h1])⟩
  · have hr := redeemResolved_err_nonpos s now mid card amount .track_data
      hown husable hnp
    have h1 : redeemByTrackData s now mid trackHash amount = .error .INVALID_AMOUNT := by
      simp [redeemByTrackData, hm, hc, hr]
    exact ⟨h1, commitOp_eq_of_err _ _ _ .INVALID_AMOUNT (by simp [applyOp, h1])⟩

/-- C4 witness: on the concrete ledger, redeeming 5000 from `card0`
(balance 2500) fails with `INSUFFICIENT_BALANCE`. -/
theorem c4_witness :
    redeem sampleLedger 9 0 0 5000 = .error .INSUFFICIENT_BALANCE :=
  (((c4_redeem_insufficient_or_nonpositive sampleLedger 9 0 0 11 21 5000
    merchant0 card0 (by decide) (by decide) (by decide) (by decide)).1
    (by decide)).1 (by decide)).1

/-! ## Claim C7 — card status state machine -/

/-- C7 (counterexample): the claim says expired and cancelled are
terminal, with *no* transition out of either state accepted.  But
`updateStatus` only rejects re-activation: on the concrete cancelled card
`card3`, a request for status `suspended` is accepted and changes the
stored status, so a transition out of `cancelled` is accepted. -/
theorem c7_counterexample :
    card3.status = CardStatus.cancelled ∧
    (updateStatus sampleLedger 9 0 3 StatusRequest.suspended).toOption.map
      (fun r => r.2.status) = some CardStatus.suspended := by
  decide

/-- C7 (amended): the status-update endpoints accept any requested
status among \x7bactive, suspended, cancelled\x7d except a request for
`active` on a card whose stored status is `cancelled` or `expired`; in
particular no status-update request ever moves an expired or cancelled
card back to `active`, but other transitions out of those states (such
as cancelled to suspended) are accepted.  `updateStatus` and
`apiUpdateStatus` behave identically here. -/
theorem c7_status_update_guards
    (s : LedgerState) (now : Int) (merchantId cardId : Nat) (req : StatusRequest)
    (m : Merchant) (card : Card)
    (hm : findMerchant s merchantId = some m)
    (hc : findCard s cardId = some card)
    (hown : card.merchantId = merchantId) :
    ((card.status = CardStatus.cancelled ∨ card.status = CardStatus.expired) →
      req = StatusRequest.active →
        updateStatus s now merchantId cardId req = .error .VALIDATION_ERROR ∧
        apiUpdateStatus s now merchantId cardId req = .error .VALIDATION_ERROR) ∧
    (¬ (req = StatusRequest.active ∧
        (card.status = CardStatus.cancelled ∨ card.status = CardStatus.expired)) →
      updateStatus s now merchantId cardId req =
        .ok (updateStatus.updateStatusPatch s now cardId card req) ∧
      (updateStatus.updateStatusPatch s now cardId card req).2.status =
        req.toCardStatus ∧
      apiUpdateStatus s now merchantId cardId req =
        .ok (updateStatus.updateStatusPatch s now cardId card req)) := by
  constructor
  · rintro hterm rfl
    rcases hterm with h | h <;>
      simp [updateStatus, apiUpdateStatus, hm, hc, hown, h]
  · intro hok
    have h1 : ¬ (card.status = CardStatus.cancelled ∧ req = StatusRequest.active) := by
      rintro ⟨hs, hr⟩; exact hok ⟨hr, Or.inl hs⟩
    have h2 : ¬ (card.status = CardStatus.expired ∧ req = StatusRequest.active) := by
      rintro ⟨hs, hr⟩; exact hok ⟨hr, Or.inr hs⟩
    simp [updateStatus, apiUpdateStatus, hm, hc, hown, h1, h2,
      updateStatus.updateStatusPatch]

/-- C7 witness: on the concrete cancelled card `card3`, a request to
re-activate is rejected with a validation error. -/
theorem c7_witness :
    updateStatus sampleLedger 9 0 3 StatusRequest.active = .error .VALIDATION_ERROR :=
  ((c7_status_update_guards sampleLedger 9 0 3 .active merchant0 card3
    (by decide) (by decide) (by decide)).1 (by decide) rfl).1

/-! ## Claim C8 — usability gating of the financial operations -/

/-- C8 (counterexample): the claim says *every* financial operation —
including `adjust` and `refund` — on a non-active card fails with a
CardInactive/CardExpired error before any mutation.  But `adjust` never
calls `validateCardUsable`: on the concrete *suspended* card `card2`
(balance 500) an adjustment of +100 succeeds, changes the balance to 600
and appends a transaction. -/
theorem c8_counterexample :
    card2.status = CardStatus.suspended ∧
    (adjust sampleLedger 9 MemberRole.owner 0 2 100).toOption.map
      (fun r => (cardBalance r.1 2, r.1.txns.length)) = some (some 600, 1) := by
  decide

/-- C8 (amended): `load`, `redeem` (all three lookup strategies) and
`transfer` validate card usability before any mutation — an unusable
card makes them fail with the `validateCardUsable` error
(CARD_INACTIVE/CARD_EXPIRED) and leave the state unchanged.  `adjust`
and `refund`, however, perform no usability check: with their other
validations satisfied they succeed on the very same unusable card. -/
theorem c8_usability_gate
    (s : LedgerState) (now : Int) (mid cid : Nat) (amount : Int)
    (m : Merchant) (card : Card) (e : ErrCode)
    (hm : findMerchant s mid = some m)
    (hc : findCard s cid = some card)
    (hown : card.merchantId = mid)
    (hbad : validateCardUsable card now = .error e) :
    (load s now mid cid amount = .error e ∧
      commitOp s now (.load mid cid amount) = s) ∧
    (redeem s now mid cid amount = .error e ∧
      commitOp s now (.redeem mid cid amount) = s) ∧
    (∀ ch, findCardByCodeHash s ch = some card →
      redeemByCode s now mid ch amount = .error e ∧
      commitOp s now (.redeemByCode mid ch amount) = s) ∧
    (∀ th, findCardByTrackHash s th = some card →
      redeemByTrackData s now mid th amount = .error e ∧
      commitOp s now (.redeemByTrackData mid th amount) = s) ∧
    (∀ tid toCard, findCard s tid = some toCard → toCard.merchantId = mid →
      cid ≠ tid →
      transfer s now mid cid tid amount = .error e ∧
      commitOp s now (.transfer mid cid tid amount) = s) ∧
    (∀ fid fromCard, findCard s fid = some fromCard → fromCard.merchantId = mid →
      fid ≠ cid → validateCardUsable fromCard now = .ok () →
      transfer s now mid fid cid amount = .error e ∧
      commitOp s now (.transfer mid fid cid amount) = s) ∧
    (∀ role, (role = MemberRole.owner ∨ role = MemberRole.admin) → amount ≠ 0 →
      0 ≤ card.currentBalance + amount →
      card.currentBalance + amount ≤ m.maxCardBalanceEff →
      adjust s now role mid cid amount =
        .ok (recordTransaction s now card .adjust amount
          (card.currentBalance + amount) none none)) ∧
    (∀ tid origTxn, findTxn s tid = some origTxn → origTxn.merchantId = mid →
      origTxn.ttype = TxnType.redeem → origTxn.cardId = cid →
      (¬ (s.txns.filter (fun t => t.cardId == origTxn.cardId)).any
          (fun t => decide (t.ttype = TxnType.refund ∧
            t.linkedTransactionId = some tid)) = true) →
      card.currentBalance + origTxn.amount ≤ m.maxCardBalanceEff →
      refund s now mid tid =
        .ok (recordTransaction s now card .refund origTxn.amount
          (card.currentBalance + origTxn.amount) none (some tid))) := by
  have hresolved : ∀ method,
      redeemResolved s now mid card amount method = .error e :=
    fun method => redeemResolved_err_unusable s now mid card amount method e hown hbad
  refine ⟨?_, ?_, ?_, ?_, ?_, ?_, ?_, ?_⟩
  · have h1 : load s now mid cid amount = .error e := by
      simp [load, hm, hc, hown, hbad]
    exact ⟨h1, commitOp_eq_of_err _ _ _ e (by simp [applyOp, h1])⟩
  · have h1 : redeem s now mid cid amount = .error e := by
      simp [redeem, hm, hc, hresolved .manual]
    exact ⟨h1, commitOp_eq_of_err _ _ _ e (by simp [applyOp, h1])⟩
  · intro ch hch
    have h1 : redeemByCode s now mid ch amount = .error e := by
      simp [redeemByCode, hm, hch, hresolved .code]
    exact ⟨h1, commitOp_eq_of_err _ _ _ e (by simp [applyOp, h1])⟩
  · intro th hth
    have h1 : redeemByTrackData s now mid th amount = .error e := by
      simp [redeemByTrackData, hm, hth, hresolved .track_data]
    exact ⟨h1, commitOp_eq_of_err _ _ _ e (by simp [applyOp, h1])⟩
  · intro tid toCard htc htmid hne
    have h1 : transfer s now mid cid tid amount = .error e := by
      simp [transfer, hm, hc, htc, hown, htmid, hne, hbad]
    exact ⟨h1, commitOp_eq_of_err _ _ _ e (by simp [applyOp, h1])⟩
  · intro fid fromCard hfc hfmid hne husrc
    have h1 : transfer s now mid fid cid amount = .error e := by
      simp [transfer, hm, hc, hfc, hown, hfmid, hne, husrc, hbad]
    exact ⟨h1, commitOp_eq_of_err _ _ _ e (by simp [applyOp, h1])⟩
  · intro role hrole hnz hlow hhigh
    have hrole' : ¬ (role ≠ MemberRole.owner ∧ role ≠ MemberRole.admin) := by
      rcases hrole with h | h <;> simp [h]
    unfold adjust
    simp only [hm, hc]
    rw [if_neg hrole', if_neg (by simp [hown]), if_neg hnz, if_neg (by omega),
      if_neg (by omega)]
  · intro tid origTxn ht hmid' hty hcid hscan hcap
    unfold refund
    simp only [hm, ht]
    rw [if_neg (by simp [hmid']), if_neg (by simp [hty]), if_neg hscan]
    simp only [hcid, hc]
    rw [if_neg (by omega)]

/-- C8 witness: on the concrete suspended card `card2`, a load fails
with CARD_INACTIVE. -/
theorem c8_witness :
    load sampleLedger 9 0 2 500 = .error .CARD_INACTIVE :=
  (c8_usability_gate sampleLedger 9 0 2 500 merchant0 card2 .CARD_INACTIVE
    (by decide) (by decide) (by decide) (by decide)).1.1

/-! ## Shared structural lemmas -/

theorem findCard_id (s : LedgerState) (cid : Nat) (c : Card)
    (h : findCard s cid = some c) : c.id = cid := by
  unfold findCard at h
  simpa using List.find?_some h

theorem findCard_mem (s : LedgerState) (cid : Nat) (c : Card)
    (h : findCard s cid = some c) : c ∈ s.cards := by
  unfold findCard at h
  exact List.mem_of_find?_eq_some h

theorem findTxn_id (s : LedgerState) (tid : Nat) (t : Transaction)
    (h : findTxn s tid = some t) : t.id = tid := by
  unfold findTxn at h
  simpa using List.find?_some h

theorem findTxn_mem (s : LedgerState) (tid : Nat) (t : Transaction)
    (h : findTxn s tid = some t) : t ∈ s.txns := by
  unfold findTxn at h
  exact List.mem_of_find?_eq_some h

theorem patchTxns_fresh (l : List Transaction) (tid : Nat)
    (f : Transaction → Transaction) (h : ∀ t ∈ l, t.id ≠ tid) :
    patchTxns l tid f = l := by
  unfold patchTxns
  have hmap : ∀ t ∈ l, (if t.id = tid then f t else t) = t := by
    intro t ht; rw [if_neg (h t ht)]
  rw [List.map_congr_left hmap]
  exact List.map_id l

theorem patchTxns_append (l₁ l₂ : List Transaction) (tid : Nat)
    (f : Transaction → Transaction) :
    patchTxns (l₁ ++ l₂) tid f = patchTxns l₁ tid f ++ patchTxns l₂ tid f := by
  simp [patchTxns]

theorem find?_patchCards (cards : List Card) (cid x : Nat) (f : Card → Card)
    (hf : ∀ c, (f c).id = c.id) :
    (patchCards cards cid f).find? (fun c => c.id == x) =
      (cards.find? (fun c => c.id == x)).map
        (fun c => if c.id = cid then f c else c) := by
  unfold patchCards
  rw [List.find?_map]
  have hcomp : ((fun c => c.id == x) ∘ (fun c => if c.id = cid then f c else c)) =
      (fun c => c.id == x) := by
    funext c
    by_cases hc : c.id = cid
    · simp [hc, hf]
    · simp [hc]
  rw [hcomp]

/-! ## Claim C2 — transfers are paired, linked and atomic -/

/-- C2: a transfer of amount `A` from card `X` to card `Y` under the
claim's preconditions (distinct cards, same merchant, both usable,
`0 < A ≤ X.currentBalance`, `Y.currentBalance + A` within the merchant's
max card balance) appends exactly two transactions, a `transfer_out` on
`X` and a `transfer_in` on `Y`, mutually linked via
`linkedTransactionId`, each of amount `A`, with `X.currentBalance`
decreasing and `Y.currentBalance` increasing by `A`; and any transfer
that fails validation commits nothing: the state — hence both cards'
balances and the transaction log — is unchanged. -/
theorem c2_transfer_paired_or_rolled_back
    (s : LedgerState) (now : Int) (mid fromId toId : Nat) (amount : Int)
    (m : Merchant) (fromCard toCard : Card)
    (hm : findMerchant s mid = some m)
    (hne : fromId ≠ toId)
    (hfc : findCard s fromId = some fromCard)
    (hfmid : fromCard.merchantId = mid)
    (htc : findCard s toId = some toCard)
    (htmid : toCard.merchantId = mid)
    (hfu : validateCardUsable fromCard now = .ok ())
    (htu : validateCardUsable toCard now = .ok ())
    (hpos : 0 < amount)
    (hbal : amount ≤ fromCard.currentBalance)
    (hcap : toCard.currentBalance + amount ≤ m.maxCardBalanceEff)
    (hwf : WellFormed s) :
    (∃ s' outT inT,
      transfer s now mid fromId toId amount = .ok (s', outT, inT) ∧
      s'.txns = s.txns ++ [outT, inT] ∧
      outT.ttype = .transfer_out ∧ inT.ttype = .transfer_in ∧
      outT.amount = amount ∧ inT.amount = amount ∧
      outT.cardId = fromId ∧ inT.cardId = toId ∧
      outT.linkedTransactionId = some inT.id ∧
      inT.linkedTransactionId = some outT.id ∧
      outT.balanceBefore = fromCard.currentBalance ∧
      outT.balanceAfter = fromCard.currentBalance - amount ∧
      inT.balanceBefore = toCard.currentBalance ∧
      inT.balanceAfter = toCard.currentBalance + amount ∧
      cardBalance s' fromId = some (fromCard.currentBalance - amount) ∧
      cardBalance s' toId = some (toCard.currentBalance + amount)) ∧
    (∀ (s₂ : LedgerState) (now₂ : Int) (mid₂ f₂ t₂ : Nat) (a₂ : Int) (e : ErrCode),
      transfer s₂ now₂ mid₂ f₂ t₂ a₂ = .error e →
        commitOp s₂ now₂ (.transfer mid₂ f₂ t₂ a₂) = s₂) := by
  have hfid : fromCard.id = fromId := findCard_id s fromId fromCard hfc
  have htid : toCard.id = toId := findCard_id s toId toCard htc
  constructor
  · have happ : transfer s now mid fromId toId amount =
        .ok (transfer.transferCommit s now mid fromCard toCard amount) := by
      unfold transfer
      simp only [hm]
      rw [if_neg hne]
      simp only [hfc]
      rw [if_neg (by simp [hfmid])]
      simp only [htc]
      rw [if_neg (by simp [htmid])]
      simp only [hfu, htu]
      rw [if_neg (by omega), if_neg (by omega), if_neg (by omega)]
    have hff : fromCard.id ≠ toCard.id := by rw [hfid, htid]; exact hne
    refine ⟨_, _, _, happ, ?_, rfl, rfl, rfl, rfl, ?_, ?_, rfl, rfl, rfl, rfl, rfl,
      rfl, ?_, ?_⟩
    · -- the transaction log grows by exactly the two linked legs
      show (transfer.transferCommit s now mid fromCard toCard amount).1.txns = _
      have hfresh : ∀ t ∈ s.txns, t.id ≠ s.nextTxnId := by
        intro t ht h
        exact absurd (hwf.2.2.2.1 t ht) (by omega)
      simp only [transfer.transferCommit]
      rw [patchTxns_append, patchTxns_append, patchTxns_fresh _ _ _ hfresh]
      simp only [patchTxns, List.map_cons, List.map_nil]
      rw [if_neg (show ¬ (s.nextTxnId + 1 = s.nextTxnId) by omega)]
      simp
    · exact hfid
    · exact htid
    · show cardBalance (transfer.transferCommit s now mid fromCard toCard amount).1
        fromId = _
      simp only [transfer.transferCommit, cardBalance, findCard]
      rw [find?_patchCards _ _ _ _ (by intro c; rfl),
        find?_patchCards _ _ _ _ (by intro c; rfl)]
      unfold findCard at hfc
      rw [hfc]
      simp [hff, Ne.symm hff]
    · show cardBalance (transfer.transferCommit s now mid fromCard toCard amount).1
        toId = _
      simp only [transfer.transferCommit, cardBalance, findCard]
      rw [find?_patchCards _ _ _ _ (by intro c; rfl),
        find?_patchCards _ _ _ _ (by intro c; rfl)]
      unfold findCard at htc
      rw [htc]
      simp [hff, Ne.symm hff]
  · intro s₂ now₂ mid₂ f₂ t₂ a₂ e h
    simp [commitOp, applyOp, h]

/-- C2 witness: transferring 300 from `card0` (balance 2500) to `card1`
(balance 1000) yields two mutually linked legs and balances 2200/1300. -/
theorem c2_witness :
    ∃ s' outT inT,
      transfer sampleLedger 12 0 0 1 300 = .ok (s', outT, inT) ∧
      s'.txns = sampleLedger.txns ++ [outT, inT] ∧
      outT.linkedTransactionId = some inT.id ∧
      inT.linkedTransactionId = some outT.id ∧
      cardBalance s' 0 = some 2200 ∧ cardBalance s' 1 = some 1300 := by
  obtain ⟨s', o, i, h1, h2, _, _, _, _, _, _, h9, h10, _, _, _, _, h15, h16⟩ :=
    (c2_transfer_paired_or_rolled_back sampleLedger 12 0 0 1 300 merchant0
      card0 card1 (by decide) (by decide) (by decide) (by decide) (by decide)
      (by decide) (by decide) (by decide) (by decide) (by decide) (by decide)
      (by decide)).1
  exact ⟨s', o, i, h1, h2, h9, h10, h15.trans (by decide), h16.trans (by decide)⟩

/-! ## Claim C5 — fixed-window rate limiting -/

theorem findWindow_triple (s : GatewayState) (kid : Nat) (wt : WindowType) (ws : Int)
    (w : RateLimitWindow) (h : findWindow s kid wt ws = some w) :
    w.apiKeyId = kid ∧ w.windowType = wt ∧ w.windowStart = ws := by
  unfold findWindow at h
  simpa using List.find?_some h

theorem findWindow_append (s : GatewayState) (w0 : RateLimitWindow)
    (kid : Nat) (wt : WindowType) (ws : Int) :
    findWindow { s with rateLimits := s.rateLimits ++ [w0] } kid wt ws =
      (findWindow s kid wt ws).or
        (if w0.apiKeyId = kid ∧ w0.windowType = wt ∧ w0.windowStart = ws then
          some w0 else none) := by
  unfold findWindow
  rw [List.find?_append]
  congr 1
  by_cases h : w0.apiKeyId = kid ∧ w0.windowType = wt ∧ w0.windowStart = ws
  · simp [h]
  · simp [h]

theorem findWindow_increment (s : GatewayState) (kid : Nat) (wt : WindowType)
    (ws : Int) (kid' : Nat) (wt' : WindowType) (ws' : Int) :
    findWindow { s with rateLimits := s.rateLimits.map (fun w =>
        if w.apiKeyId = kid ∧ w.windowType = wt ∧ w.windowStart = ws then
          { w with count := w.count + 1 } else w) } kid' wt' ws' =
      (findWindow s kid' wt' ws').map (fun w =>
        if w.apiKeyId = kid ∧ w.windowType = wt ∧ w.windowStart = ws then
          { w with count := w.count + 1 } else w) := by
  unfold findWindow
  rw [List.find?_map]
  have hfn : ((fun w : RateLimitWindow => decide (w.apiKeyId = kid' ∧
        w.windowType = wt' ∧ w.windowStart = ws')) ∘
        (fun w : RateLimitWindow =>
          if w.apiKeyId = kid ∧ w.windowType = wt ∧ w.windowStart = ws then
            { w with count := w.count + 1 } else w)) =
      (fun w : RateLimitWindow => decide (w.apiKeyId = kid' ∧ w.windowType = wt' ∧
        w.windowStart = ws')) := by
    funext w
    by_cases h : w.apiKeyId = kid ∧ w.windowType = wt ∧ w.windowStart = ws
    · simp [h, Function.comp]
    · simp [h, Function.comp]
  rw [hfn]

/-- Behaviour of one `checkRateLimit` call, split by the state of the
(key, windowType, windowStart) counter. -/
theorem checkRateLimit_cases (s : GatewayState) (now : Int) (kid : Nat)
    (wt : WindowType) (k : ApiKeyDoc) (hk : findApiKey s kid = some k) :
    (findWindow s kid wt (windowStartOf wt now) = none →
      checkRateLimit s now kid wt =
        ({ s with rateLimits := s.rateLimits ++
            [{ apiKeyId := kid, windowType := wt,
               windowStart := windowStartOf wt now, count := 1 }] },
         { allowed := true, remaining := limitOf k wt - 1, limit := limitOf k wt,
           resetAt := windowStartOf wt now + windowDurationMs wt })) ∧
    (∀ w, findWindow s kid wt (windowStartOf wt now) = some w →
      (limitOf k wt ≤ w.count →
        checkRateLimit s now kid wt =
          (s, { allowed := false, remaining := 0, limit := limitOf k wt,
                resetAt := windowStartOf wt now + windowDurationMs wt })) ∧
      (w.count < limitOf k wt →
        checkRateLimit s now kid wt =
          ({ s with rateLimits := s.rateLimits.map (fun w' =>
              if w'.apiKeyId = kid ∧ w'.windowType = wt ∧
                  w'.windowStart = windowStartOf wt now then
                { w' with count := w'.count + 1 } else w') },
           { allowed := true, remaining := limitOf k wt - w.count - 1,
             limit := limitOf k wt,
             resetAt := windowStartOf wt now + windowDurationMs wt }))) := by
  refine ⟨fun hnone => ?_, fun w hw => ⟨fun hge => ?_, fun hlt => ?_⟩⟩
  · unfold checkRateLimit
    simp only [hk, hnone]
  · unfold checkRateLimit
    simp only [hk, hw]
    rw [if_pos (by omega)]
  · unfold checkRateLimit
    simp only [hk, hw]
    rw [if_neg (by omega)]

/-- State evolution of `j ≤ N` consecutive minute-window checks starting
from a state with no counter for the current window: the key table is
untouched, the current window's counter holds exactly `j`, and every
other counter is untouched. -/
theorem iterateChecks_state (s : GatewayState) (now : Int) (kid : Nat)
    (k : ApiKeyDoc) (N : Nat)
    (hk : findApiKey s kid = some k)
    (hN : k.rateLimitPerMinute = (N : Int))
    (hwin : findWindow s kid .minute (windowStartOf .minute now) = none) :
    ∀ j, j ≤ N →
      (iterateChecks s now kid j).apiKeys = s.apiKeys ∧
      findWindow (iterateChecks s now kid j) kid .minute
          (windowStartOf .minute now) =
        (if j = 0 then none else
          some { apiKeyId := kid, windowType := .minute,
                 windowStart := windowStartOf .minute now, count := (j : Int) }) ∧
      (∀ kid' wt' ws',
        ¬ (kid' = kid ∧ wt' = WindowType.minute ∧
            ws' = windowStartOf .minute now) →
        findWindow (iterateChecks s now kid j) kid' wt' ws' =
          findWindow s kid' wt' ws') := by
  intro j
  induction j with
  | zero => exact fun _ => ⟨rfl, by simp [iterateChecks, hwin], fun _ _ _ _ => rfl⟩
  | succ j ih =>
    intro hle
    obtain ⟨hkeys, hcur, hother⟩ := ih (by omega)
    have hkj : findApiKey (iterateChecks s now kid j) kid = some k := by
      unfold findApiKey
      rw [hkeys]
      exact hk
    have hcases := checkRateLimit_cases (iterateChecks s now kid j) now kid .minute
      k hkj
    by_cases hj : j = 0
    · subst hj
      simp only [if_pos rfl] at hcur
      have hstep := hcases.1 hcur
      have hiter : iterateChecks s now kid 1 =
          (checkRateLimit (iterateChecks s now kid 0) now kid .minute).1 := rfl
      rw [hiter, hstep]
      refine ⟨hkeys, ?_, ?_⟩
      · rw [findWindow_append, hcur]
        simp
      · intro kid' wt' ws' hne
        rw [findWindow_append]
        rw [hother kid' wt' ws' hne]
        have : ¬ (kid = kid' ∧ WindowType.minute = wt' ∧
            windowStartOf .minute now = ws') := by
          rintro ⟨a, b, c⟩
          exact hne ⟨a.symm, b.symm, c.symm⟩
        simp only [this, if_neg this]
        cases findWindow s kid' wt' ws' <;> rfl
    · rw [if_neg hj] at hcur
      have hlt : ((j : Int)) < limitOf k .minute := by
        simp only [limitOf, hN]
        exact_mod_cast (by omega : j < N)
      have hstep := (hcases.2 _ hcur).2 (by simpa using hlt)
      have hiter : iterateChecks s now kid (j + 1) =
          (checkRateLimit (iterateChecks s now kid j) now kid .minute).1 := rfl
      rw [hiter, hstep]
      refine ⟨hkeys, ?_, ?_⟩
      · rw [findWindow_increment, hcur]
        simp only [Option.map_some']
        rw [if_pos ⟨trivial, trivial, trivial⟩, if_neg (show ¬ (j + 1 = 0) by omega)]
        push_cast
        rfl
      · intro kid' wt' ws' hne
        rw [findWindow_increment]
        rw [hother kid' wt' ws' hne]
        cases hfw : findWindow s kid' wt' ws' with
        | none => rfl
        | some w' =>
          obtain ⟨ha, hb, hc⟩ := findWindow_triple s kid' wt' ws' w' hfw
          simp only [Option.map_some']
          rw [if_neg]
          rintro ⟨a, b, c⟩
          exact hne ⟨ha ▸ a, hb ▸ b, hc ▸ c⟩

/-- C5 (counterexample): the claim's "(N+1)-th request inside one
minute window is denied" fails for the representable per-minute limit
N = 0 (`create` keeps an explicit `rateLimitPerMinute: 0`, since `0` is
not nullish).  With no counter in the window, the first request — which
is the (N+1)-th for N = 0 — creates the counter with count 1 and is
*allowed*. -/
theorem c5_counterexample :
    (findApiKey sampleGateway 1).map ApiKeyDoc.rateLimitPerMinute = some 0 ∧
    findWindow sampleGateway 1 .minute (windowStartOf .minute 0) = none ∧
    (checkRateLimit sampleGateway 0 1 .minute).2.allowed = true := by
  decide

/-- C5 (amended): the rate limiter is fixed-window counting — with
`windowStart = floor(now / windowDuration) * windowDuration`, an absent
(key, windowType, windowStart) counter is created with count 1 and the
request allowed; an existing counter below the limit is incremented and
the request allowed; a counter at or above the limit denies the request
without incrementing (the state is unchanged).  Hence for a per-minute
limit of N ≥ 1, requests 1..N inside one minute window are allowed, the
(N+1)-th is denied, and the first request after the window rolls over is
allowed again. -/
theorem c5_fixed_window_rate_limiter
    (s : GatewayState) (now : Int) (kid : Nat) (wt : WindowType) (k : ApiKeyDoc)
    (hk : findApiKey s kid = some k) :
    (findWindow s kid wt (windowStartOf wt now) = none →
      (checkRateLimit s now kid wt).2.allowed = true ∧
      windowCount (checkRateLimit s now kid wt).1 kid wt (windowStartOf wt now) = 1) ∧
    (∀ w, findWindow s kid wt (windowStartOf wt now) = some w →
      w.count < limitOf k wt →
      (checkRateLimit s now kid wt).2.allowed = true ∧
      windowCount (checkRateLimit s now kid wt).1 kid wt (windowStartOf wt now) =
        w.count + 1) ∧
    (∀ w, findWindow s kid wt (windowStartOf wt now) = some w →
      limitOf k wt ≤ w.count →
      (checkRateLimit s now kid wt).2.allowed = false ∧
      (checkRateLimit s now kid wt).1 = s) ∧
    (∀ N : Nat, 1 ≤ N → k.rateLimitPerMinute = (N : Int) →
      findWindow s kid .minute (windowStartOf .minute now) = none →
      (∀ j, j < N →
        (checkRateLimit (iterateChecks s now kid j) now kid .minute).2.allowed =
          true) ∧
      (checkRateLimit (iterateChecks s now kid N) now kid .minute).2.allowed =
        false ∧
      (∀ now', windowStartOf .minute now' ≠ windowStartOf .minute now →
        findWindow s kid .minute (windowStartOf .minute now') = none →
        (checkRateLimit (iterateChecks s now kid N) now' kid .minute).2.allowed =
          true)) := by
  have hcases := checkRateLimit_cases s now kid wt k hk
  refine ⟨fun hnone => ?_, fun w hw hlt => ?_, fun w hw hge => ?_,
    fun N hN1 hN hwin => ?_⟩
  · rw [hcases.1 hnone]
    refine ⟨rfl, ?_⟩
    unfold windowCount
    rw [findWindow_append, hnone]
    simp
  · obtain ⟨ha, hb, hc⟩ := findWindow_triple s kid wt _ w hw
    rw [(hcases.2 w hw).2 hlt]
    refine ⟨rfl, ?_⟩
    unfold windowCount
    rw [findWindow_increment, hw]
    simp only [Option.map_some']
    rw [if_pos ⟨ha, hb, hc⟩]
    rfl
  · rw [(hcases.2 w hw).1 hge]
    exact ⟨rfl, rfl⟩
  · have hstate := iterateChecks_state s now kid k N hk hN hwin
    refine ⟨fun j hj => ?_, ?_, fun now' hne hnone' => ?_⟩
    · obtain ⟨hkeys, hcur, hother⟩ := hstate j (by omega)
      have hkj : findApiKey (iterateChecks s now kid j) kid = some k := by
        unfold findApiKey; rw [hkeys]; exact hk
      have hcj := checkRateLimit_cases (iterateChecks s now kid j) now kid .minute
        k hkj
      by_cases hj0 : j = 0
      · subst hj0
        rw [if_pos rfl] at hcur
        rw [hcj.1 hcur]
      · rw [if_neg hj0] at hcur
        have hlt : ((j : Int)) < limitOf k .minute := by
          simp only [limitOf, hN]
          exact_mod_cast hj
        rw [(hcj.2 _ hcur).2 (by simpa using hlt)]
    · obtain ⟨hkeys, hcur, hother⟩ := hstate N (le_refl N)
      have hkN : findApiKey (iterateChecks s now kid N) kid = some k := by
        unfold findApiKey; rw [hkeys]; exact hk
      have hcN := checkRateLimit_cases (iterateChecks s now kid N) now kid .minute
        k hkN
      rw [if_neg (by omega)] at hcur
      have hge : limitOf k .minute ≤
          (({ apiKeyId := kid, windowType := .minute,
              windowStart := windowStartOf .minute now,
              count := (N : Int) } : RateLimitWindow)).count := by
        simp only [limitOf, hN]
        exact le_refl _
      rw [(hcN.2 _ hcur).1 hge]
    · obtain ⟨hkeys, hcur, hother⟩ := hstate N (le_refl N)
      have hkN : findApiKey (iterateChecks s now kid N) kid = some k := by
        unfold findApiKey; rw [hkeys]; exact hk
      have hcN := checkRateLimit_cases (iterateChecks s now kid N) now' kid .minute
        k hkN
      have hnone2 : findWindow (iterateChecks s now kid N) kid .minute
          (windowStartOf .minute now') = none := by
        rw [hother kid .minute (windowStartOf .minute now')
          (by rintro ⟨_, _, hc⟩; exact hne hc)]
        exact hnone'
      rw [hcN.1 hnone2]

/-- C5 witness: with `apiKey0` (per-minute limit 2) and a fresh window,
the third request within the window at `now = 5` is denied. -/
theorem c5_witness :
    (checkRateLimit (iterateChecks sampleGateway 5 0 2) 5 0 .minute).2.allowed =
      false :=
  ((c5_fixed_window_rate_limiter sampleGateway 5 0 .minute apiKey0
    (by decide)).2.2.2 2 (by decide) (by decide) (by decide)).2.1

/-! ## Claim C6 — webhook retry backoff and endpoint auto-disable -/

theorem findDelivery_id (s : WebhookState) (did : Nat) (d : WebhookDelivery)
    (h : findDelivery s did = some d) : d.id = did := by
  unfold findDelivery at h
  simpa using List.find?_some h

theorem findEndpoint_id (s : WebhookState) (eid : Nat) (ep : WebhookEndpoint)
    (h : findEndpoint s eid = some ep) : ep.id = eid := by
  unfold findEndpoint at h
  simpa using List.find?_some h

theorem findEndpoint_mem (s : WebhookState) (eid : Nat) (ep : WebhookEndpoint)
    (h : findEndpoint s eid = some ep) : ep ∈ s.endpoints := by
  unfold findEndpoint at h
  exact List.mem_of_find?_eq_some h

theorem find?_patchDeliveries (ds : List WebhookDelivery) (did x : Nat)
    (f : WebhookDelivery → WebhookDelivery) (hf : ∀ d, (f d).id = d.id) :
    (patchDeliveries ds did f).find? (fun d => d.id == x) =
      (ds.find? (fun d => d.id == x)).map
        (fun d => if d.id = did then f d else d) := by
  unfold patchDeliveries
  rw [List.find?_map]
  have hcomp : ((fun d : WebhookDelivery => d.id == x) ∘
      (fun d => if d.id = did then f d else d)) =
      (fun d : WebhookDelivery => d.id == x) := by
    funext d
    by_cases hd : d.id = did
    · simp [hd, hf]
    · simp [hd]
  rw [hcomp]

theorem find?_patchEndpoints (eps : List WebhookEndpoint) (eid x : Nat)
    (f : WebhookEndpoint → WebhookEndpoint) (hf : ∀ ep, (f ep).id = ep.id) :
    (patchEndpoints eps eid f).find? (fun ep => ep.id == x) =
      (eps.find? (fun ep => ep.id == x)).map
        (fun ep => if ep.id = eid then f ep else ep) := by
  unfold patchEndpoints
  rw [List.find?_map]
  have hcomp : ((fun ep : WebhookEndpoint => ep.id == x) ∘
      (fun ep => if ep.id = eid then f ep else ep)) =
      (fun ep : WebhookEndpoint => ep.id == x) := by
    funext ep
    by_cases hep : ep.id = eid
    · simp [hep, hf]
    · simp [hep]
  rw [hcomp]

/-- The retry drain never touches endpoints, and every delivery id it
schedules belongs to a delivery with attempts below the maximum and an
active endpoint. -/
theorem retryFold_props (s0 : WebhookState) :
    ∀ (ds : List WebhookDelivery) (acc : WebhookState × List Nat),
      acc.1.endpoints = s0.endpoints →
      (∀ i ∈ acc.2, ∃ d' ∈ s0.deliveries, d'.id = i ∧
        d'.attempts < WEBHOOK_MAX_RETRIES ∧
        ∃ ep' ∈ s0.endpoints, ep'.id = d'.endpointId ∧
          ep'.status = EndpointStatus.active) →
      (∀ d ∈ ds, d ∈ s0.deliveries) →
      (ds.foldl retryStep acc).1.endpoints = s0.endpoints ∧
      ∀ i ∈ (ds.foldl retryStep acc).2, ∃ d' ∈ s0.deliveries, d'.id = i ∧
        d'.attempts < WEBHOOK_MAX_RETRIES ∧
        ∃ ep' ∈ s0.endpoints, ep'.id = d'.endpointId ∧
          ep'.status = EndpointStatus.active := by
  intro ds
  induction ds with
  | nil => exact fun acc h1 h2 _ => ⟨h1, h2⟩
  | cons d ds ih =>
    intro acc h1 h2 hmem
    simp only [List.foldl_cons, retryStep]
    by_cases hatt : d.attempts ≥ WEBHOOK_MAX_RETRIES
    · rw [if_pos hatt]
      exact ih _ h1 h2 (fun x hx => hmem x (List.mem_cons_of_mem d hx))
    · rw [if_neg hatt]
      cases hfe : findEndpoint acc.1 d.endpointId with
      | none =>
        exact ih _ h1 h2 (fun x hx => hmem x (List.mem_cons_of_mem d hx))
      | some endpoint =>
        simp only []
        by_cases hst : endpoint.status ≠ EndpointStatus.active
        · rw [if_pos hst]
          exact ih _ h1 h2 (fun x hx => hmem x (List.mem_cons_of_mem d hx))
        · rw [if_neg hst]
          refine ih _ h1 ?_ (fun x hx => hmem x (List.mem_cons_of_mem d hx))
          intro i hi
          rcases List.mem_append.mp hi with hi | hi
          · exact h2 i hi
          · have hid : i = d.id := by simpa using hi
            subst hid
            have hepmem : endpoint ∈ s0.endpoints := by
              have := findEndpoint_mem acc.1 d.endpointId endpoint hfe
              rwa [h1] at this
            have hepid : endpoint.id = d.endpointId :=
              findEndpoint_id acc.1 d.endpointId endpoint hfe
            exact ⟨d, hmem d (List.mem_cons_self d ds), rfl, by omega,
              endpoint, hepmem, hepid, by simpa using hst⟩

/-- Every delivery in the state after a `dispatch` either pre-existed or
belongs to an active endpoint subscribed to the event. -/
theorem dispatchFold_props (s0 : WebhookState) (ev : String) :
    ∀ (eps : List WebhookEndpoint) (acc : WebhookState × Nat),
      (∀ ep ∈ eps, ep ∈ s0.endpoints) →
      (∀ d' ∈ acc.1.deliveries, d' ∈ s0.deliveries ∨
        ∃ ep' ∈ s0.endpoints, ep'.id = d'.endpointId ∧
          ep'.status = EndpointStatus.active ∧ ep'.events.contains ev = true) →
      ∀ d' ∈ (eps.foldl (dispatchStep ev) acc).1.deliveries,
        d' ∈ s0.deliveries ∨
          ∃ ep' ∈ s0.endpoints, ep'.id = d'.endpointId ∧
            ep'.status = EndpointStatus.active ∧ ep'.events.contains ev = true := by
  intro eps
  induction eps with
  | nil => exact fun acc _ h2 => h2
  | cons ep eps ih =>
    intro acc h1 h2
    simp only [List.foldl_cons, dispatchStep]
    by_cases hst : ep.status ≠ EndpointStatus.active
    · rw [if_pos hst]
      exact ih _ (fun x hx => h1 x (List.mem_cons_of_mem ep hx)) h2
    · rw [if_neg hst]
      by_cases hev : ¬ ep.events.contains ev
      · rw [if_pos hev]
        exact ih _ (fun x hx => h1 x (List.mem_cons_of_mem ep hx)) h2
      · rw [if_neg hev]
        refine ih _ (fun x hx => h1 x (List.mem_cons_of_mem ep hx)) ?_
        intro d' hd'
        rcases List.mem_append.mp hd' with hd' | hd'
        · exact h2 d' hd'
        · have heq : d' = { id := acc.1.nextDeliveryId, endpointId := ep.id,
                            event := ev, status := .pending, attempts := 0,
                            nextRetryAt := none, lastAttemptAt := none } := by
            simpa using hd'
          subst heq
          exact Or.inr ⟨ep, h1 ep (List.mem_cons_self ep eps), rfl,
            by simpa using hst, by simpa using hev⟩

/-- The record stored for a delivery after a failed attempt that still
has retries left. -/
def failedRetryRecord (d : WebhookDelivery) (now : Int) : WebhookDelivery :=
  { d with
    status := .failed,
    attempts := d.attempts + 1,
    lastAttemptAt := some now,
    nextRetryAt := some (now + ((d.attempts + 1 : Nat) : Int) ^ 2 * 60000) }

/-- The record stored for a delivery whose failure exhausted the maximum
retry count (the stale `nextRetryAt` is left in place). -/
def failedFinalRecord (d : WebhookDelivery) (now : Int) : WebhookDelivery :=
  { d with
    status := .failed,
    attempts := d.attempts + 1,
    lastAttemptAt := some now }

/-- The record stored for a delivered delivery. -/
def deliveredRecord (d : WebhookDelivery) (now : Int) : WebhookDelivery :=
  { d with status := .delivered, lastAttemptAt := some now }

/-- C6: webhook delivery outcomes.  On success the delivery becomes
`delivered`, the endpoint's `failureCount` resets to zero and
`lastDeliveredAt` is stamped.  On failure the attempt counter becomes
`attempts + 1`; below `WEBHOOK_MAX_RETRIES` the next retry is scheduled
`(attempts + 1)² minutes` later, at or above it the delivery is left
permanently `failed`; the endpoint's `failureCount` increments, and at
`WEBHOOK_AUTO_DISABLE_THRESHOLD` the endpoint flips to `disabled`.  The
retry drain never schedules a delivery that has exhausted its retries or
whose endpoint is not active, and `dispatch` never creates a delivery
for a non-active endpoint. -/
theorem c6_webhook_retry_backoff_and_disable
    (s : WebhookState) (now : Int) (did eid : Nat)
    (d : WebhookDelivery) (ep : WebhookEndpoint)
    (hd : findDelivery s did = some d)
    (he : findEndpoint s eid = some ep) :
    (findDelivery (updateDeliveryStatus s now did eid true) did =
        some (deliveredRecord d now) ∧
      findEndpoint (updateDeliveryStatus s now did eid true) eid =
        some { ep with failureCount := 0, lastDeliveredAt := some now }) ∧
    (d.attempts + 1 < WEBHOOK_MAX_RETRIES →
      findDelivery (updateDeliveryStatus s now did eid false) did =
        some (failedRetryRecord d now)) ∧
    (WEBHOOK_MAX_RETRIES ≤ d.attempts + 1 →
      findDelivery (updateDeliveryStatus s now did eid false) did =
        some (failedFinalRecord d now)) ∧
    ((findEndpoint (updateDeliveryStatus s now did eid false) eid).map
        WebhookEndpoint.failureCount = some (ep.failureCount + 1) ∧
      (WEBHOOK_AUTO_DISABLE_THRESHOLD ≤ ep.failureCount + 1 →
        (findEndpoint (updateDeliveryStatus s now did eid false) eid).map
          WebhookEndpoint.status = some .disabled)) ∧
    (∀ i ∈ (retryFailed s now).2, ∃ d' ∈ s.deliveries, d'.id = i ∧
      d'.attempts < WEBHOOK_MAX_RETRIES ∧
      ∃ ep' ∈ s.endpoints, ep'.id = d'.endpointId ∧
        ep'.status = EndpointStatus.active) ∧
    (∀ ev mid, ∀ d' ∈ (dispatch s ev mid).1.deliveries,
      d' ∈ s.deliveries ∨
        ∃ ep' ∈ s.endpoints, ep'.id = d'.endpointId ∧
          ep'.status = EndpointStatus.active ∧ ep'.events.contains ev = true) := by
  have hdid : d.id = did := findDelivery_id s did d hd
  have hepid : ep.id = eid := findEndpoint_id s eid ep he
  refine ⟨⟨?_, ?_⟩, fun hlt => ?_, fun hge => ?_, ⟨?_, fun hthr => ?_⟩, ?_, ?_⟩
  · unfold updateDeliveryStatus
    simp only [hd, he, if_pos]
    unfold findDelivery
    simp only
    rw [find?_patchDeliveries _ _ _ _ (by intro q; rfl)]
    unfold findDelivery at hd
    rw [hd]
    simp [hdid, deliveredRecord]
  · unfold updateDeliveryStatus
    simp only [hd, he, if_pos]
    unfold findEndpoint
    simp only
    rw [find?_patchEndpoints _ _ _ _ (by intro q; rfl)]
    unfold findEndpoint at he
    rw [he]
    simp [hepid]
  · unfold updateDeliveryStatus
    simp only [hd, he]
    rw [if_neg (by simp)]
    rw [if_neg (show ¬ (d.attempts + 1 ≥ WEBHOOK_MAX_RETRIES) from by omega)]
    unfold findDelivery
    simp only
    rw [find?_patchDeliveries _ _ _ _ (by intro q; rfl)]
    unfold findDelivery at hd
    rw [hd]
    simp [hdid, failedRetryRecord]
  · unfold updateDeliveryStatus
    simp only [hd, he]
    rw [if_neg (by simp)]
    rw [if_pos (show d.attempts + 1 ≥ WEBHOOK_MAX_RETRIES from by omega)]
    unfold findDelivery
    simp only
    rw [find?_patchDeliveries _ _ _ _ (by intro q; rfl)]
    unfold findDelivery at hd
    rw [hd]
    simp [hdid, failedFinalRecord]
  · unfold updateDeliveryStatus
    simp only [hd, he]
    rw [if_neg (by simp)]
    by_cases hthr : ep.failureCount + 1 ≥ WEBHOOK_AUTO_DISABLE_THRESHOLD
    · rw [if_pos hthr]
      unfold findEndpoint
      simp only
      rw [find?_patchEndpoints _ _ _ _ (by intro q; rfl)]
      unfold findEndpoint at he
      rw [he]
      simp [hepid]
    · rw [if_neg hthr]
      unfold findEndpoint
      simp only
      rw [find?_patchEndpoints _ _ _ _ (by intro q; rfl)]
      unfold findEndpoint at he
      rw [he]
      simp [hepid]
  · unfold updateDeliveryStatus
    simp only [hd, he]
    rw [if_neg (by simp)]
    rw [if_pos (show ep.failureCount + 1 ≥ WEBHOOK_AUTO_DISABLE_THRESHOLD from
      by omega)]
    unfold findEndpoint
    simp only
    rw [find?_patchEndpoints _ _ _ _ (by intro q; rfl)]
    unfold findEndpoint at he
    rw [he]
    simp [hepid]
  · intro i hi
    exact (retryFold_props s ((s.deliveries.filter (dueForRetry now)).take 50)
      (s, []) rfl (by simp) (fun x hx =>
        List.mem_of_mem_filter (List.mem_of_mem_take hx))).2 i hi
  · intro ev mid d' hd'
    exact dispatchFold_props s ev
      (s.endpoints.filter (fun ep => ep.merchantId == some mid)) (s, 0)
      (fun x hx => List.mem_of_mem_filter hx) (fun x hx => Or.inl hx) d' hd'

/-- C6 witness: a failed first attempt on `delivery0` schedules the
retry one minute out. -/
theorem c6_witness :
    findDelivery (updateDeliveryStatus sampleWebhooks 50 0 0 false) 0 =
      some (failedRetryRecord delivery0 50) :=
  (c6_webhook_retry_backoff_and_disable sampleWebhooks 50 0 0 delivery0 endpoint0
    (by decide) (by decide)).2.1 (by decide)

/-! ## Claims C9 and C10 — gateway logging and rate-limit consumption -/

/-- `checkRateLimit` only ever touches the rate-limit windows: the key
table and the request log are preserved. -/
theorem checkRateLimit_preserves (s : GatewayState) (now : Int) (kid : Nat)
    (wt : WindowType) :
    ((checkRateLimit s now kid wt).1).logs = s.logs ∧
    ((checkRateLimit s now kid wt).1).apiKeys = s.apiKeys := by
  unfold checkRateLimit
  cases h : findApiKey s kid with
  | none => exact ⟨rfl, rfl⟩
  | some k =>
    simp only
    cases h2 : findWindow s kid wt (windowStartOf wt now) with
    | none => exact ⟨rfl, rfl⟩
    | some w =>
      simp only
      by_cases h3 : w.count ≥ limitOf k wt
      · rw [if_pos h3]
        exact ⟨rfl, rfl⟩
      · rw [if_neg h3]
        exact ⟨rfl, rfl⟩

/-- Shape of a successful `validateKey`: the returned key is the one
found by hash, and the only write is its `lastUsedAt` stamp. -/
theorem validateKey_ok_state (s : GatewayState) (now : Int) (kh : Nat)
    (s1 : GatewayState) (k : ApiKeyDoc)
    (h : validateKey s now kh = .ok (s1, k)) :
    s1 = { s with apiKeys := s.apiKeys.map (fun k' =>
      if k'.id = k.id then { k' with lastUsedAt := some now } else k') } ∧
    s.apiKeys.find? (fun k' => k'.keyHash == kh) = some k := by
  unfold validateKey at h
  cases hf : s.apiKeys.find? (fun k' => k'.keyHash == kh) with
  | none => rw [hf] at h; exact absurd h (by simp)
  | some key =>
    rw [hf] at h
    simp only [] at h
    by_cases h1 : key.status = KeyStatus.revoked
    · rw [if_pos h1] at h
      exact absurd h (by simp)
    · rw [if_neg h1] at h
      by_cases h2 : (match key.expiresAt with
          | some e => decide (e ≠ 0 ∧ e < now)
          | none => false) = true
      · rw [if_pos h2] at h
        exact absurd h (by simp)
      · rw [if_neg h2] at h
        simp only [Except.ok.injEq, Prod.mk.injEq] at h
        obtain ⟨hs, hk⟩ := h
        subst hk
        exact ⟨hs.symm, rfl⟩

/-- C9: for an authenticated route, requests rejected before key
resolution — missing Authorization header, header without the bearer
prefix, key string without the `lgf_` prefix, or a failed key lookup —
leave the gateway state (in particular the request log) unchanged; once
the API key resolves, exactly one request-log record is appended,
whatever the outcome (rate-limit denial, permission denial, handler
failure or success), and it carries the key's id, the request's method
and path, and the response's status code. -/
theorem c9_request_logging
    (hash : List Char → Nat) (s : GatewayState) (now : Int) (req : GatewayRequest)
    (perm : String) (hperm : req.routePermission = some perm) :
    (req.authHeader = none → (dispatchRoute hash s now req).1 = s) ∧
    (∀ h, req.authHeader = some h → ¬ BEARER_CHARS.isPrefixOf h →
      (dispatchRoute hash s now req).1 = s) ∧
    (∀ h, req.authHeader = some h → BEARER_CHARS.isPrefixOf h →
      ¬ LGF_CHARS.isPrefixOf (h.drop 7) →
      (dispatchRoute hash s now req).1 = s) ∧
    (∀ h e, req.authHeader = some h → BEARER_CHARS.isPrefixOf h →
      LGF_CHARS.isPrefixOf (h.drop 7) →
      validateKey s now (hash (h.drop 7)) = .error e →
      (dispatchRoute hash s now req).1 = s) ∧
    (∀ h s1 k, req.authHeader = some h → BEARER_CHARS.isPrefixOf h →
      LGF_CHARS.isPrefixOf (h.drop 7) →
      validateKey s now (hash (h.drop 7)) = .ok (s1, k) →
      ∃ entry : RequestLog,
        (dispatchRoute hash s now req).1.logs = s.logs ++ [entry] ∧
        entry.apiKeyId = k.id ∧ entry.method = req.method ∧
        entry.path = req.path ∧
        entry.statusCode = (dispatchRoute hash s now req).2.status) := by
  refine ⟨fun hnone => ?_, fun h hh hb => ?_, fun h hh hb hl => ?_,
    fun h e hh hb hl hv => ?_, fun h s1 k hh hb hl hv => ?_⟩
  · unfold dispatchRoute
    simp only [hperm, hnone]
  · unfold dispatchRoute
    simp only [hperm, hh]
    rw [if_pos (by simpa using hb)]
  · unfold dispatchRoute
    simp only [hperm, hh]
    rw [if_neg (by simpa using hb), if_pos (by simpa using hl)]
  · unfold dispatchRoute
    simp only [hperm, hh]
    rw [if_neg (by simpa using hb), if_neg (by simpa using hl)]
    simp only [hv]
  · have hlogs1 : s1.logs = s.logs := by
      rw [(validateKey_ok_state s now _ s1 k hv).1]
    have hmin := checkRateLimit_preserves s1 now k.id .minute
    have hday := checkRateLimit_preserves
      (checkRateLimit s1 now k.id .minute).1 now k.id .day
    unfold dispatchRoute
    simp only [hperm, hh]
    rw [if_neg (by simpa using hb), if_neg (by simpa using hl)]
    simp only [hv]
    by_cases hm : (checkRateLimit s1 now k.id .minute).2.allowed
    · rw [if_neg (by simpa using hm)]
      by_cases hd : (checkRateLimit (checkRateLimit s1 now k.id .minute).1 now
          k.id .day).2.allowed
      · rw [if_neg (by simpa using hd)]
        by_cases hp : hasPermission k.permissions perm
        · rw [if_neg (by simpa using hp)]
          cases ho : req.outcome with
          | ok st =>
            simp only []
            refine ⟨mkLogEntry k req st (now - now) none, ?_, rfl, rfl, rfl, rfl⟩
            simp [logRequest, hday.1, hmin.1, hlogs1]
          | err code =>
            simp only []
            refine ⟨mkLogEntry k req (errorCodeToStatus code) (now - now)
              (some STR_HANDLER_ERROR), ?_, rfl, rfl, rfl, rfl⟩
            simp [logRequest, hday.1, hmin.1, hlogs1]
        · rw [if_pos (by simpa using hp)]
          refine ⟨mkLogEntry k req 403 (now - now) (some STR_MISSING_PERMISSION),
            ?_, rfl, rfl, rfl, rfl⟩
          simp [logRequest, hday.1, hmin.1, hlogs1]
      · rw [if_pos (by simpa using hd)]
        refine ⟨mkLogEntry k req 429 (now - now) (some STR_DAILY_RATE_LIMIT_MSG),
          ?_, rfl, rfl, rfl, rfl⟩
        simp [logRequest, hday.1, hmin.1, hlogs1]
    · rw [if_pos (by simpa using hm)]
      refine ⟨mkLogEntry k req 429 (now - now) (some STR_RATE_LIMIT_MSG),
        ?_, rfl, rfl, rfl, rfl⟩
      simp [logRequest, hmin.1, hlogs1]

/-- C9 witness: the concrete request with a resolvable key appends
exactly one log record with the request's method and path. -/
theorem c9_witness :
    ∃ entry : RequestLog,
      (dispatchRoute sampleHash sampleGateway 5 sampleRequest).1.logs =
        sampleGateway.logs ++ [entry] ∧
      entry.apiKeyId = apiKey0.id ∧ entry.method = sampleRequest.method ∧
      entry.path = sampleRequest.path ∧
      entry.statusCode = (dispatchRoute sampleHash sampleGateway 5
        sampleRequest).2.status := by
  obtain ⟨entry, h1, h2, h3, h4, h5⟩ :=
    (c9_request_logging sampleHash sampleGateway 5 sampleRequest PERM_CARDS_READ
      (by decide)).2.2.2.2 sampleAuthChars
      { sampleGateway with apiKeys := sampleGateway.apiKeys.map (fun k' =>
          if k'.id = apiKey0.id then { k' with lastUsedAt := some 5 } else k') }
      apiKey0 rfl (by decide) (by decide) (by decide)
  exact ⟨entry, h1, h2, h3, h4, h5⟩

/-- `find?` by id over the `lastUsedAt` patch of the key table. -/
theorem findApiKey_patch (s : GatewayState) (now : Int) (kid x : Nat) :
    findApiKey { s with apiKeys := s.apiKeys.map (fun k' =>
      if k'.id = kid then { k' with lastUsedAt := some now } else k') } x =
      (findApiKey s x).map (fun k' =>
        if k'.id = kid then { k' with lastUsedAt := some now } else k') := by
  unfold findApiKey
  rw [List.find?_map]
  have hcomp : ((fun k' : ApiKeyDoc => k'.id == x) ∘ (fun k' =>
      if k'.id = kid then { k' with lastUsedAt := some now } else k')) =
      (fun k' : ApiKeyDoc => k'.id == x) := by
    funext k'
    by_cases hc : k'.id = kid
    · simp [hc]
    · simp [hc]
  rw [hcomp]

theorem windowCount_congr (sA sB : GatewayState) (kid : Nat) (wt : WindowType)
    (ws : Int) (h : findWindow sA kid wt ws = findWindow sB kid wt ws) :
    windowCount sA kid wt ws = windowCount sB kid wt ws := by
  unfold windowCount
  rw [h]

/-- One rate-limit check with room in the window: allowed, the window's
count increments by one (a fresh window counts as going from 0 to 1),
and every other window is untouched. -/
theorem checkRateLimit_room (s : GatewayState) (now : Int) (kid : Nat)
    (wt : WindowType) (k : ApiKeyDoc) (hk : findApiKey s kid = some k)
    (hroom : findWindow s kid wt (windowStartOf wt now) = none ∨
      (∃ w, findWindow s kid wt (windowStartOf wt now) = some w ∧
        w.count < limitOf k wt)) :
    (checkRateLimit s now kid wt).2.allowed = true ∧
    windowCount (checkRateLimit s now kid wt).1 kid wt (windowStartOf wt now) =
      windowCount s kid wt (windowStartOf wt now) + 1 ∧
    ((checkRateLimit s now kid wt).1).apiKeys = s.apiKeys ∧
    ((checkRateLimit s now kid wt).1).logs = s.logs ∧
    (∀ kid' wt' ws', ¬ (kid' = kid ∧ wt' = wt ∧ ws' = windowStartOf wt now) →
      findWindow ((checkRateLimit s now kid wt).1) kid' wt' ws' =
        findWindow s kid' wt' ws') := by
  have hcases := checkRateLimit_cases s now kid wt k hk
  rcases hroom with hnone | ⟨w, hw, hlt⟩
  · rw [hcases.1 hnone]
    refine ⟨rfl, ?_, rfl, rfl, ?_⟩
    · unfold windowCount
      rw [findWindow_append, hnone]
      simp [windowCount, hnone]
    · intro kid' wt' ws' hne
      rw [findWindow_append]
      have hno : ¬ (kid = kid' ∧ wt = wt' ∧ windowStartOf wt now = ws') := by
        rintro ⟨a, b, c⟩
        exact hne ⟨a.symm, b.symm, c.symm⟩
      simp only [hno, if_neg hno]
      cases findWindow s kid' wt' ws' <;> rfl
  · obtain ⟨ha, hb, hc⟩ := findWindow_triple s kid wt _ w hw
    rw [(hcases.2 w hw).2 hlt]
    refine ⟨rfl, ?_, rfl, rfl, ?_⟩
    · unfold windowCount
      rw [findWindow_increment, hw]
      simp only [Option.map_some']
      rw [if_pos ⟨ha, hb, hc⟩]
      rfl
    · intro kid' wt' ws' hne
      rw [findWindow_increment]
      cases hfw : findWindow s kid' wt' ws' with
      | none => rfl
      | some w' =>
        obtain ⟨ha', hb', hc'⟩ := findWindow_triple s kid' wt' ws' w' hfw
        simp only [Option.map_some']
        rw [if_neg]
        rintro ⟨a, b, c⟩
        exact hne ⟨ha' ▸ a, hb' ▸ b, hc' ▸ c⟩

/-- C10: once the key resolves, the minute window is consumed first and
the day window second; neither is ever rolled back.  If both windows
have room, both counters increment by exactly one whatever happens
afterwards — permission denial, handler failure or handler success all
consume one slot from each window.  A request denied by the minute
window increments nothing: the rate-limit table (including the day
window) is left exactly as it was. -/
theorem c10_rate_counters_consumed
    (hash : List Char → Nat) (s : GatewayState) (now : Int) (req : GatewayRequest)
    (perm : String) (h : List Char) (s1 : GatewayState) (k : ApiKeyDoc)
    (hperm : req.routePermission = some perm)
    (hauth : req.authHeader = some h)
    (hb : BEARER_CHARS.isPrefixOf h)
    (hl : LGF_CHARS.isPrefixOf (h.drop 7))
    (hv : validateKey s now (hash (h.drop 7)) = .ok (s1, k))
    (hkid : findApiKey s k.id = some k) :
    ((findWindow s k.id .minute (windowStartOf .minute now) = none ∨
      (∃ w, findWindow s k.id .minute (windowStartOf .minute now) = some w ∧
        w.count < k.rateLimitPerMinute)) →
     (findWindow s k.id .day (windowStartOf .day now) = none ∨
      (∃ w, findWindow s k.id .day (windowStartOf .day now) = some w ∧
        w.count < k.rateLimitPerDay)) →
      windowCount (dispatchRoute hash s now req).1 k.id .minute
          (windowStartOf .minute now) =
        windowCount s k.id .minute (windowStartOf .minute now) + 1 ∧
      windowCount (dispatchRoute hash s now req).1 k.id .day
          (windowStartOf .day now) =
        windowCount s k.id .day (windowStartOf .day now) + 1) ∧
    (∀ w, findWindow s k.id .minute (windowStartOf .minute now) = some w →
      k.rateLimitPerMinute ≤ w.count →
      (dispatchRoute hash s now req).1.rateLimits = s.rateLimits) := by
  obtain ⟨hs1, hfound⟩ := validateKey_ok_state s now (hash (h.drop 7)) s1 k hv
  have hk1 : findApiKey s1 k.id =
      some { k with lastUsedAt := some now } := by
    rw [hs1, findApiKey_patch, hkid]
    simp
  have hw1 : ∀ kid' wt' ws', findWindow s1 kid' wt' ws' = findWindow s kid' wt' ws' := by
    intro kid' wt' ws'
    rw [hs1]
    rfl
  have hwc1 : ∀ kid' wt' ws', windowCount s1 kid' wt' ws' = windowCount s kid' wt' ws' := by
    intro kid' wt' ws'
    unfold windowCount
    rw [hw1]
  constructor
  · intro hroomM hroomD
    have hroomM1 : findWindow s1 k.id .minute (windowStartOf .minute now) = none ∨
        (∃ w, findWindow s1 k.id .minute (windowStartOf .minute now) = some w ∧
          w.count < limitOf { k with lastUsedAt := some now } .minute) := by
      rw [hw1]
      exact hroomM
    have hM := checkRateLimit_room s1 now k.id .minute _ hk1 hroomM1
    have hk2 : findApiKey (checkRateLimit s1 now k.id .minute).1 k.id =
        some { k with lastUsedAt := some now } := by
      unfold findApiKey
      rw [hM.2.2.1]
      exact hk1
    have hroomD2 : findWindow (checkRateLimit s1 now k.id .minute).1 k.id .day
        (windowStartOf .day now) = none ∨
        (∃ w, findWindow (checkRateLimit s1 now k.id .minute).1 k.id .day
          (windowStartOf .day now) = some w ∧
          w.count < limitOf { k with lastUsedAt := some now } .day) := by
      rw [hM.2.2.2.2 k.id .day (windowStartOf .day now) (by rintro ⟨_, hb', _⟩; cases hb'),
        hw1]
      exact hroomD
    have hD := checkRateLimit_room (checkRateLimit s1 now k.id .minute).1 now k.id
      .day _ hk2 hroomD2
    have hfinalM : windowCount (checkRateLimit
        (checkRateLimit s1 now k.id .minute).1 now k.id .day).1 k.id .minute
        (windowStartOf .minute now) =
        windowCount s k.id .minute (windowStartOf .minute now) + 1 := by
      rw [windowCount_congr _ (checkRateLimit s1 now k.id .minute).1 k.id .minute
        (windowStartOf .minute now) (hD.2.2.2.2 k.id .minute
          (windowStartOf .minute now) (by rintro ⟨_, hb', _⟩; cases hb'))]
      rw [hM.2.1, hwc1]
    have hfinalD : windowCount (checkRateLimit
        (checkRateLimit s1 now k.id .minute).1 now k.id .day).1 k.id .day
        (windowStartOf .day now) =
        windowCount s k.id .day (windowStartOf .day now) + 1 := by
      rw [hD.2.1]
      rw [windowCount_congr (checkRateLimit s1 now k.id .minute).1 s1 k.id .day
        (windowStartOf .day now) (by
          rw [hM.2.2.2.2 k.id .day (windowStartOf .day now)
            (by rintro ⟨_, hb', _⟩; cases hb'), hw1])]
      rw [hwc1]
    unfold dispatchRoute
    simp only [hperm, hauth]
    rw [if_neg (by simpa using hb), if_neg (by simpa using hl)]
    simp only [hv]
    rw [if_neg (by simp [hM.1])]
    rw [if_neg (by simp [hD.1])]
    by_cases hp : hasPermission k.permissions perm
    · rw [if_neg (by simpa using hp)]
      cases req.outcome with
      | ok st => exact ⟨hfinalM, hfinalD⟩
      | err code => exact ⟨hfinalM, hfinalD⟩
    · rw [if_pos (by simpa using hp)]
      exact ⟨hfinalM, hfinalD⟩
  · intro w hw hge
    have hw1' : findWindow s1 k.id .minute (windowStartOf .minute now) = some w := by
      rw [hw1]
      exact hw
    have hcases := checkRateLimit_cases s1 now k.id .minute _ hk1
    have hdenied := (hcases.2 w hw1').1 (by simpa [limitOf] using hge)
    unfold dispatchRoute
    simp only [hperm, hauth]
    rw [if_neg (by simpa using hb), if_neg (by simpa using hl)]
    simp only [hv]
    rw [hdenied]
    rw [if_pos (by simp)]
    show s1.rateLimits = s.rateLimits
    rw [hs1]

/-- C10 witness: on the concrete permission-denied request the minute
and day counters are both consumed. -/
theorem c10_witness :
    windowCount (dispatchRoute sampleHash sampleGateway 5 sampleRequestDenied).1
        0 .minute (windowStartOf .minute 5) =
      windowCount sampleGateway 0 .minute (windowStartOf .minute 5) + 1 ∧
    windowCount (dispatchRoute sampleHash sampleGateway 5 sampleRequestDenied).1
        0 .day (windowStartOf .day 5) =
      windowCount sampleGateway 0 .day (windowStartOf .day 5) + 1 :=
  (c10_rate_counters_consumed sampleHash sampleGateway 5 sampleRequestDenied
    PERM_CARDS_REDEEM sampleAuthChars
    { sampleGateway with apiKeys := sampleGateway.apiKeys.map (fun k' =>
        if k'.id = apiKey0.id then { k' with lastUsedAt := some 5 } else k') }
    apiKey0 (by decide) rfl (by decide) (by decide) rfl (by decide)).1
    (by decide) (by decide)

/-! ## Claims C1 and C3 — ledger invariants over operation sequences -/

theorem cardLedgerSum_append_one (txns : List Transaction) (t : Transaction)
    (cid : Nat) :
    cardLedgerSum (txns ++ [t]) cid =
      cardLedgerSum txns cid + (if t.cardId = cid then signedAmount t else 0) := by
  unfold cardLedgerSum
  rw [List.filter_append, List.map_append, List.sum_append]
  congr 1
  rw [List.filter_singleton]
  by_cases h : t.cardId = cid
  · rw [show (t.cardId == cid) = true from by simp [h], if_pos h]
    simp
  · rw [show (t.cardId == cid) = false from by simp [h], if_neg h]
    simp

theorem cardLedgerSum_two (txns : List Transaction) (t1 t2 : Transaction)
    (cid : Nat) :
    cardLedgerSum (txns ++ [t1, t2]) cid =
      cardLedgerSum txns cid +
      (if t1.cardId = cid then signedAmount t1 else 0) +
      (if t2.cardId = cid then signedAmount t2 else 0) := by
  have hsplit : txns ++ [t1, t2] = (txns ++ [t1]) ++ [t2] := by simp
  rw [hsplit, cardLedgerSum_append_one, cardLedgerSum_append_one]

theorem cardLedgerSum_fresh (txns : List Transaction) (n : Nat)
    (h : ∀ t ∈ txns, t.cardId ≠ n) : cardLedgerSum txns n = 0 := by
  unfold cardLedgerSum
  have hnil : txns.filter (fun t => t.cardId == n) = [] := by
    rw [List.filter_eq_nil_iff]
    intro t ht
    simpa using h t ht
  rw [hnil]
  rfl

theorem filterRefund_append_one (txns : List Transaction) (t : Transaction)
    (tid : Nat) :
    ((txns ++ [t]).filter (fun u => decide (u.ttype = TxnType.refund ∧
        u.linkedTransactionId = some tid))).length =
      (txns.filter (fun u => decide (u.ttype = TxnType.refund ∧
        u.linkedTransactionId = some tid))).length +
      (if t.ttype = TxnType.refund ∧ t.linkedTransactionId = some tid then 1
        else 0) := by
  rw [List.filter_append, List.length_append]
  congr 1
  rw [List.filter_singleton]
  by_cases h : t.ttype = TxnType.refund ∧ t.linkedTransactionId = some tid
  · rw [decide_eq_true h, if_pos h]
    rfl
  · rw [decide_eq_false h, if_neg h]
    rfl

theorem card_unique_of_nodup (s : LedgerState) (card : Card)
    (hnodup : (s.cards.map Card.id).Nodup) (hmem : card ∈ s.cards) :
    ∀ c ∈ s.cards, c.id = card.id → c = card := by
  intro c hc hcid
  exact List.inj_on_of_nodup_map hnodup hc hmem hcid

theorem txn_unique_of_nodup (s : LedgerState) (tid : Nat) (txn : Transaction)
    (hnodup : (s.txns.map Transaction.id).Nodup)
    (hfind : findTxn s tid = some txn) :
    ∀ t ∈ s.txns, t.id = tid → t = txn := by
  intro t ht htid
  exact List.inj_on_of_nodup_map hnodup ht (findTxn_mem s tid txn hfind)
    (by rw [htid, findTxn_id s tid txn hfind])

theorem findCard_of_mem (s : LedgerState) (card : Card)
    (hnodup : (s.cards.map Card.id).Nodup) (hmem : card ∈ s.cards) :
    findCard s card.id = some card := by
  unfold findCard
  cases hf : s.cards.find? (fun c => c.id == card.id) with
  | none =>
    have := List.find?_eq_none.mp hf card hmem
    simp at this
  | some c =>
    have hcmem := List.mem_of_find?_eq_some hf
    have hcid : c.id = card.id := by simpa using List.find?_some hf
    rw [List.inj_on_of_nodup_map hnodup hcmem hmem hcid]

theorem findCardByCodeHash_mem (s : LedgerState) (h : Nat) (card : Card)
    (hf : findCardByCodeHash s h = some card) : card ∈ s.cards := by
  unfold findCardByCodeHash at hf
  cases hl : s.cards.filter (fun c => c.codeHash == h) with
  | nil => rw [hl] at hf; exact Option.noConfusion hf
  | cons c tl =>
    cases tl with
    | nil =>
      rw [hl] at hf
      have hc : c = card := Option.some.inj hf
      have hmemf : c ∈ s.cards.filter (fun c2 => c2.codeHash == h) := by
        rw [hl]; exact List.mem_singleton.mpr rfl
      rw [← hc]
      exact List.mem_of_mem_filter hmemf
    | cons c2 tl2 => rw [hl] at hf; exact Option.noConfusion hf

theorem findCardByTrackHash_mem (s : LedgerState) (h : Nat) (card : Card)
    (hf : findCardByTrackHash s h = some card) : card ∈ s.cards := by
  unfold findCardByTrackHash at hf
  cases hl : s.cards.filter (fun c => c.trackDataHash == some h) with
  | nil => rw [hl] at hf; exact Option.noConfusion hf
  | cons c tl =>
    cases tl with
    | nil =>
      rw [hl] at hf
      have hc : c = card := Option.some.inj hf
      have hmemf : c ∈ s.cards.filter (fun c2 => c2.trackDataHash == some h) := by
        rw [hl]; exact List.mem_singleton.mpr rfl
      rw [← hc]
      exact List.mem_of_mem_filter hmemf
    | cons c2 tl2 => rw [hl] at hf; exact Option.noConfusion hf

theorem refund_guard_refundCount (s : LedgerState) (origTxn : Transaction)
    (tid : Nat)
    (hnodupT : (s.txns.map Transaction.id).Nodup)
    (hrefLink : ∀ t ∈ s.txns, t.ttype = TxnType.refund →
      ∀ u, t.linkedTransactionId = some u →
        ∃ o ∈ s.txns, o.id = u ∧ o.cardId = t.cardId)
    (hfind : findTxn s tid = some origTxn)
    (hguard : ((s.txns.filter (fun t => t.cardId == origTxn.cardId)).any
      (fun t => decide (t.ttype = TxnType.refund ∧
        t.linkedTransactionId = some tid))) = false) :
    refundCount s tid = 0 := by
  unfold refundCount
  rw [List.length_eq_zero, List.filter_eq_nil_iff]
  intro t ht hP
  have hP2 : t.ttype = TxnType.refund ∧ t.linkedTransactionId = some tid :=
    of_decide_eq_true hP
  obtain ⟨o, ho, hoid, hocard⟩ := hrefLink t ht hP2.1 tid hP2.2
  have horig : o = origTxn :=
    txn_unique_of_nodup s tid origTxn hnodupT hfind o ho hoid
  have htc : t.cardId = origTxn.cardId := by
    rw [← horig]; exact hocard.symm
  have hmemf : t ∈ s.txns.filter (fun u => u.cardId == origTxn.cardId) := by
    rw [List.mem_filter]
    exact ⟨ht, by simp [htc]⟩
  exact (List.any_eq_false.mp hguard) t hmemf hP

theorem scan_false_of_refundCount_zero (s : LedgerState) (cid tid : Nat)
    (hzero : refundCount s tid = 0) :
    ((s.txns.filter (fun t => t.cardId == cid)).any
      (fun t => decide (t.ttype = TxnType.refund ∧
        t.linkedTransactionId = some tid))) = false := by
  rw [List.any_eq_false]
  intro t ht hP
  have ht2 := List.mem_of_mem_filter ht
  unfold refundCount at hzero
  rw [List.length_eq_zero, List.filter_eq_nil_iff] at hzero
  exact hzero t ht2 hP

theorem recordTransaction_txns (s : LedgerState) (now : Int) (card : Card)
    (ty : TxnType) (a nb : Int) (rm : Option RedemptionMethod) (lk : Option Nat) :
    (recordTransaction s now card ty a nb rm lk).1.txns =
      s.txns ++ [(recordTransaction s now card ty a nb rm lk).2] := rfl

theorem recordTransaction_cards (s : LedgerState) (now : Int) (card : Card)
    (ty : TxnType) (a nb : Int) (rm : Option RedemptionMethod) (lk : Option Nat) :
    (recordTransaction s now card ty a nb rm lk).1.cards =
      patchCards s.cards card.id
        (fun c => { c with currentBalance := nb, lastUsedAt := some now }) := rfl

theorem recordTransaction_merchants (s : LedgerState) (now : Int) (card : Card)
    (ty : TxnType) (a nb : Int) (rm : Option RedemptionMethod) (lk : Option Nat) :
    (recordTransaction s now card ty a nb rm lk).1.merchants = s.merchants := rfl

theorem recordTransaction_nextTxnId (s : LedgerState) (now : Int) (card : Card)
    (ty : TxnType) (a nb : Int) (rm : Option RedemptionMethod) (lk : Option Nat) :
    (recordTransaction s now card ty a nb rm lk).1.nextTxnId = s.nextTxnId + 1 :=
  rfl

theorem recordTransaction_nextCardId (s : LedgerState) (now : Int) (card : Card)
    (ty : TxnType) (a nb : Int) (rm : Option RedemptionMethod) (lk : Option Nat) :
    (recordTransaction s now card ty a nb rm lk).1.nextCardId = s.nextCardId :=
  rfl

theorem recordTransaction_snd_id (s : LedgerState) (now : Int) (card : Card)
    (ty : TxnType) (a nb : Int) (rm : Option RedemptionMethod) (lk : Option Nat) :
    (recordTransaction s now card ty a nb rm lk).2.id = s.nextTxnId := rfl

theorem recordTransaction_snd_cardId (s : LedgerState) (now : Int) (card : Card)
    (ty : TxnType) (a nb : Int) (rm : Option RedemptionMethod) (lk : Option Nat) :
    (recordTransaction s now card ty a nb rm lk).2.cardId = card.id := rfl

theorem recordTransaction_snd_ttype (s : LedgerState) (now : Int) (card : Card)
    (ty : TxnType) (a nb : Int) (rm : Option RedemptionMethod) (lk : Option Nat) :
    (recordTransaction s now card ty a nb rm lk).2.ttype = ty := rfl

theorem recordTransaction_snd_amount (s : LedgerState) (now : Int) (card : Card)
    (ty : TxnType) (a nb : Int) (rm : Option RedemptionMethod) (lk : Option Nat) :
    (recordTransaction s now card ty a nb rm lk).2.amount = a := rfl

theorem recordTransaction_snd_link (s : LedgerState) (now : Int) (card : Card)
    (ty : TxnType) (a nb : Int) (rm : Option RedemptionMethod) (lk : Option Nat) :
    (recordTransaction s now card ty a nb rm lk).2.linkedTransactionId = lk := rfl

theorem recordTransaction_snd_before (s : LedgerState) (now : Int) (card : Card)
    (ty : TxnType) (a nb : Int) (rm : Option RedemptionMethod) (lk : Option Nat) :
    (recordTransaction s now card ty a nb rm lk).2.balanceBefore =
      card.currentBalance := rfl

theorem recordTransaction_snd_after (s : LedgerState) (now : Int) (card : Card)
    (ty : TxnType) (a nb : Int) (rm : Option RedemptionMethod) (lk : Option Nat) :
    (recordTransaction s now card ty a nb rm lk).2.balanceAfter = nb := rfl

theorem recordTransaction_signedAmount (s : LedgerState) (now : Int) (card : Card)
    (ty : TxnType) (a nb : Int) (rm : Option RedemptionMethod) (lk : Option Nat) :
    signedAmount (recordTransaction s now card ty a nb rm lk).2 =
      signedOf ty a := rfl

theorem patchCards_map_id (cards : List Card) (cid : Nat) (f : Card → Card)
    (hf : ∀ c, (f c).id = c.id) :
    (patchCards cards cid f).map Card.id = cards.map Card.id := by
  unfold patchCards
  rw [List.map_map]
  apply List.map_congr_left
  intro c _
  by_cases h : c.id = cid
  · simp [h, hf]
  · simp [h]

theorem cardLedgerSum_record (s : LedgerState) (now : Int) (card : Card)
    (ty : TxnType) (a nb : Int) (rm : Option RedemptionMethod) (lk : Option Nat)
    (cid : Nat) :
    cardLedgerSum (recordTransaction s now card ty a nb rm lk).1.txns cid =
      cardLedgerSum s.txns cid +
      (if card.id = cid then signedOf ty a else 0) := by
  rw [recordTransaction_txns, cardLedgerSum_append_one,
    recordTransaction_snd_cardId, recordTransaction_signedAmount]

theorem refundCount_record (s : LedgerState) (now : Int) (card : Card)
    (ty : TxnType) (a nb : Int) (rm : Option RedemptionMethod) (lk : Option Nat)
    (tid : Nat) :
    refundCount (recordTransaction s now card ty a nb rm lk).1 tid =
      refundCount s tid +
      (if ty = TxnType.refund ∧ lk = some tid then 1 else 0) := by
  unfold refundCount
  rw [recordTransaction_txns, filterRefund_append_one,
    recordTransaction_snd_ttype, recordTransaction_snd_link]

theorem cardBalance_record_self (s : LedgerState) (now : Int) (card : Card)
    (ty : TxnType) (a nb : Int) (rm : Option RedemptionMethod) (lk : Option Nat)
    (hfind : findCard s card.id = some card) :
    cardBalance (recordTransaction s now card ty a nb rm lk).1 card.id =
      some nb := by
  unfold cardBalance findCard
  rw [recordTransaction_cards,
    find?_patchCards s.cards card.id card.id _ (by intro q; rfl)]
  unfold findCard at hfind
  rw [hfind, Option.map_some', Option.map_some', if_pos rfl]

theorem findCard_record_other (s : LedgerState) (now : Int) (card : Card)
    (ty : TxnType) (a nb : Int) (rm : Option RedemptionMethod) (lk : Option Nat)
    (x : Nat) (c : Card) (hx : c.id ≠ card.id) (hfind : findCard s x = some c) :
    findCard (recordTransaction s now card ty a nb rm lk).1 x = some c := by
  unfold findCard
  rw [recordTransaction_cards,
    find?_patchCards s.cards card.id x _ (by intro q; rfl)]
  unfold findCard at hfind
  rw [hfind, Option.map_some', if_neg hx]

theorem findTxn_record (s : LedgerState) (now : Int) (card : Card)
    (ty : TxnType) (a nb : Int) (rm : Option RedemptionMethod) (lk : Option Nat)
    (tid : Nat) (T : Transaction) (hfind : findTxn s tid = some T) :
    findTxn (recordTransaction s now card ty a nb rm lk).1 tid = some T := by
  unfold findTxn
  rw [recordTransaction_txns, List.find?_append]
  unfold findTxn at hfind
  rw [hfind]
  rfl

theorem findMerchant_record (s : LedgerState) (now : Int) (card : Card)
    (ty : TxnType) (a nb : Int) (rm : Option RedemptionMethod) (lk : Option Nat)
    (mid : Nat) :
    findMerchant (recordTransaction s now card ty a nb rm lk).1 mid =
      findMerchant s mid := rfl

/-- One `recordTransaction` whose new balance is the old balance plus the
signed amount of the inserted ledger entry preserves the full ledger
invariant, provided a refund entry is only created when no refund of the
same target exists yet and the target is a transaction of the same card. -/
theorem recordTransaction_preserves
    (s : LedgerState) (now : Int) (card : Card) (ty : TxnType)
    (a nb : Int) (rm : Option RedemptionMethod) (lk : Option Nat)
    (hInv : Inv s)
    (hfind : findCard s card.id = some card)
    (hbal : nb = card.currentBalance + signedOf ty a)
    (hlink_none : ty ≠ TxnType.refund → lk = none)
    (hlink_refund : ty = TxnType.refund → ∃ tid, lk = some tid ∧
      refundCount s tid = 0 ∧ ∃ o ∈ s.txns, o.id = tid ∧ o.cardId = card.id) :
    Inv (recordTransaction s now card ty a nb rm lk).1 := by
  obtain ⟨⟨hnodupC, hcardsLt, hnodupT, htxnsLt, hcardIdLt, hrefLink⟩, hbalInv,
    hrefUniq⟩ := hInv
  have hmem : card ∈ s.cards := findCard_mem s card.id card hfind
  have hcardLt : card.id < s.nextCardId := hcardsLt card hmem
  refine ⟨⟨?_, ?_, ?_, ?_, ?_, ?_⟩, ?_, ?_⟩
  · -- card ids are unchanged, hence still unique
    rw [recordTransaction_cards,
      patchCards_map_id s.cards card.id _ (by intro q; rfl)]
    exact hnodupC
  · -- card ids stay below the unchanged counter
    intro c hc
    rw [recordTransaction_nextCardId]
    have hid : c.id ∈ (recordTransaction s now card ty a nb rm lk).1.cards.map
        Card.id := List.mem_map_of_mem _ hc
    rw [recordTransaction_cards,
      patchCards_map_id s.cards card.id _ (by intro q; rfl)] at hid
    obtain ⟨c0, hc0, hc0eq⟩ := List.mem_map.mp hid
    rw [← hc0eq]
    exact hcardsLt c0 hc0
  · -- transaction ids stay unique: the new id is the fresh counter
    rw [recordTransaction_txns, List.map_append, List.nodup_append]
    refine ⟨hnodupT, by simp, ?_⟩
    intro x hx hx'
    obtain ⟨t0, ht0, ht0eq⟩ := List.mem_map.mp hx
    have hxval : x = s.nextTxnId := by
      simpa [recordTransaction_snd_id] using hx'
    have hlt := htxnsLt t0 ht0
    omega
  · -- transaction ids below the bumped counter
    rw [recordTransaction_txns, recordTransaction_nextTxnId]
    intro t ht
    rcases List.mem_append.mp ht with ht | ht
    · have := htxnsLt t ht
      omega
    · have hteq := List.mem_singleton.mp ht
      rw [hteq, recordTransaction_snd_id]
      omega
  · -- transaction card ids below the card counter
    rw [recordTransaction_txns, recordTransaction_nextCardId]
    intro t ht
    rcases List.mem_append.mp ht with ht | ht
    · exact hcardIdLt t ht
    · have hteq := List.mem_singleton.mp ht
      rw [hteq, recordTransaction_snd_cardId]
      exact hcardLt
  · -- every refund entry lives on its target's card
    rw [recordTransaction_txns]
    intro t ht hty tid hlink
    rcases List.mem_append.mp ht with ht | ht
    · obtain ⟨o, ho, hoid, hocard⟩ := hrefLink t ht hty tid hlink
      exact ⟨o, List.mem_append_left _ ho, hoid, hocard⟩
    · have hteq := List.mem_singleton.mp ht
      subst hteq
      rw [recordTransaction_snd_ttype] at hty
      rw [recordTransaction_snd_link] at hlink
      obtain ⟨tid0, hl0, _, o, ho, hoid, hocard⟩ := hlink_refund hty
      rw [hl0] at hlink
      have htid0 : tid0 = tid := Option.some.inj hlink
      subst htid0
      refine ⟨o, List.mem_append_left _ ho, hoid, ?_⟩
      rw [recordTransaction_snd_cardId]
      exact hocard
  · -- the balance invariant
    intro c hc
    rw [recordTransaction_cards] at hc
    unfold patchCards at hc
    obtain ⟨c0, hc0, hc0eq⟩ := List.mem_map.mp hc
    subst hc0eq
    by_cases h : c0.id = card.id
    · have hc0card : c0 = card := card_unique_of_nodup s card hnodupC hmem c0 hc0 h
      subst hc0card
      rw [if_pos h]
      show nb = c0.initialBalance +
        cardLedgerSum (recordTransaction s now c0 ty a nb rm lk).1.txns c0.id
      rw [cardLedgerSum_record, if_pos rfl, hbal, hbalInv c0 hc0]
      ring
    · rw [if_neg h, cardLedgerSum_record,
        if_neg (fun hh => h hh.symm), add_zero]
      exact hbalInv c0 hc0
  · -- at most one refund per target
    intro tid
    rw [refundCount_record]
    by_cases hty : ty = TxnType.refund
    · obtain ⟨tid0, hl0, hzero, _⟩ := hlink_refund hty
      by_cases htid : tid0 = tid
      · subst htid
        rw [hzero]
        split
        · omega
        · omega
      · rw [if_neg (by
          rintro ⟨h1, h2⟩
          rw [hl0] at h2
          exact htid (Option.some.inj h2))]
        have := hrefUniq tid
        omega
    · rw [if_neg (by rintro ⟨h1, h2⟩; exact hty h1)]
      have := hrefUniq tid
      omega

/-- The new ledger entry of one `recordTransaction` snapshots the stored
balance before the write and the balance written. -/
theorem recordTransaction_snapshot (s : LedgerState) (now : Int) (card : Card)
    (ty : TxnType) (a nb : Int) (rm : Option RedemptionMethod) (lk : Option Nat)
    (hfind : findCard s card.id = some card) :
    ∀ t ∈ (recordTransaction s now card ty a nb rm lk).1.txns, t ∉ s.txns →
      cardBalance s t.cardId = some t.balanceBefore ∧
      cardBalance (recordTransaction s now card ty a nb rm lk).1 t.cardId =
        some t.balanceAfter := by
  intro t ht hnew
  rw [recordTransaction_txns] at ht
  rcases List.mem_append.mp ht with ht | ht
  · exact absurd ht hnew
  · have hteq := List.mem_singleton.mp ht
    subst hteq
    constructor
    · rw [recordTransaction_snd_cardId, recordTransaction_snd_before]
      unfold cardBalance
      rw [hfind]
      rfl
    · rw [recordTransaction_snd_cardId, recordTransaction_snd_after]
      exact cardBalance_record_self s now card ty a nb rm lk hfind

theorem load_ok (s : LedgerState) (now : Int) (mid cid : Nat) (a : Int)
    (r : LedgerState × Transaction) (h : load s now mid cid a = .ok r) :
    ∃ card, findCard s cid = some card ∧
      r = recordTransaction s now card .load a (card.currentBalance + a)
        none none := by
  simp only [load] at h
  cases hm : findMerchant s mid with
  | none => simp only [hm] at h; exact Except.noConfusion h
  | some merchant =>
    simp only [hm] at h
    cases hc : findCard s cid with
    | none => simp only [hc] at h; exact Except.noConfusion h
    | some card =>
      simp only [hc] at h
      by_cases h1 : card.merchantId ≠ mid
      · rw [if_pos h1] at h; exact Except.noConfusion h
      · rw [if_neg h1] at h
        cases hv : validateCardUsable card now with
        | error e => simp only [hv] at h; exact Except.noConfusion h
        | ok u =>
          simp only [hv] at h
          by_cases h2 : a ≤ 0
          · rw [if_pos h2] at h; exact Except.noConfusion h
          · rw [if_neg h2] at h
            by_cases h3 : a < merchant.minLoadAmountEff
            · rw [if_pos h3] at h; exact Except.noConfusion h
            · rw [if_neg h3] at h
              by_cases h4 : a > merchant.maxLoadAmountEff
              · rw [if_pos h4] at h; exact Except.noConfusion h
              · rw [if_neg h4] at h
                by_cases h5 : card.currentBalance + a > merchant.maxCardBalanceEff
                · rw [if_pos h5] at h; exact Except.noConfusion h
                · rw [if_neg h5] at h
                  exact ⟨card, rfl, (Except.ok.inj h).symm⟩

theorem redeemResolved_ok (s : LedgerState) (now : Int) (mid : Nat) (card : Card)
    (a : Int) (m : RedemptionMethod) (r : LedgerState × Transaction)
    (h : redeemResolved s now mid card a m = .ok r) :
    r = recordTransaction s now card .redeem a (card.currentBalance - a)
      (some m) none := by
  simp only [redeemResolved] at h
  by_cases h1 : card.merchantId ≠ mid
  · rw [if_pos h1] at h; exact Except.noConfusion h
  · rw [if_neg h1] at h
    cases hv : validateCardUsable card now with
    | error e => simp only [hv] at h; exact Except.noConfusion h
    | ok u =>
      simp only [hv] at h
      by_cases h2 : a ≤ 0
      · rw [if_pos h2] at h; exact Except.noConfusion h
      · rw [if_neg h2] at h
        by_cases h3 : a > card.currentBalance
        · rw [if_pos h3] at h; exact Except.noConfusion h
        · rw [if_neg h3] at h
          exact (Except.ok.inj h).symm

theorem redeem_ok (s : LedgerState) (now : Int) (mid cid : Nat) (a : Int)
    (r : LedgerState × Transaction) (h : redeem s now mid cid a = .ok r) :
    ∃ card, findCard s cid = some card ∧
      r = recordTransaction s now card .redeem a (card.currentBalance - a)
        (some RedemptionMethod.manual) none := by
  simp only [redeem] at h
  cases hm : findMerchant s mid with
  | none => simp only [hm] at h; exact Except.noConfusion h
  | some merchant =>
    simp only [hm] at h
    cases hc : findCard s cid with
    | none => simp only [hc] at h; exact Except.noConfusion h
    | some card =>
      simp only [hc] at h
      exact ⟨card, rfl, redeemResolved_ok s now mid card a .manual r h⟩

theorem redeemByCode_ok (s : LedgerState) (now : Int) (mid ch : Nat) (a : Int)
    (r : LedgerState × Transaction) (h : redeemByCode s now mid ch a = .ok r) :
    ∃ card, card ∈ s.cards ∧
      r = recordTransaction s now card .redeem a (card.currentBalance - a)
        (some RedemptionMethod.code) none := by
  simp only [redeemByCode] at h
  cases hm : findMerchant s mid with
  | none => simp only [hm] at h; exact Except.noConfusion h
  | some merchant =>
    simp only [hm] at h
    cases hc : findCardByCodeHash s ch with
    | none => simp only [hc] at h; exact Except.noConfusion h
    | some card =>
      simp only [hc] at h
      exact ⟨card, findCardByCodeHash_mem s ch card hc,
        redeemResolved_ok s now mid card a .code r h⟩

theorem redeemByTrackData_ok (s : LedgerState) (now : Int) (mid th : Nat)
    (a : Int) (r : LedgerState × Transaction)
    (h : redeemByTrackData s now mid th a = .ok r) :
    ∃ card, card ∈ s.cards ∧
      r = recordTransaction s now card .redeem a (card.currentBalance - a)
        (some RedemptionMethod.track_data) none := by
  simp only [redeemByTrackData] at h
  cases hm : findMerchant s mid with
  | none => simp only [hm] at h; exact Except.noConfusion h
  | some merchant =>
    simp only [hm] at h
    cases hc : findCardByTrackHash s th with
    | none => simp only [hc] at h; exact Except.noConfusion h
    | some card =>
      simp only [hc] at h
      exact ⟨card, findCardByTrackHash_mem s th card hc,
        redeemResolved_ok s now mid card a .track_data r h⟩

theorem adjust_ok (s : LedgerState) (now : Int) (role : MemberRole)
    (mid cid : Nat) (a : Int) (r : LedgerState × Transaction)
    (h : adjust s now role mid cid a = .ok r) :
    ∃ card, findCard s cid = some card ∧
      r = recordTransaction s now card .adjust a (card.currentBalance + a)
        none none := by
  simp only [adjust] at h
  cases hm : findMerchant s mid with
  | none => simp only [hm] at h; exact Except.noConfusion h
  | some merchant =>
    simp only [hm] at h
    by_cases h0 : role ≠ MemberRole.owner ∧ role ≠ MemberRole.admin
    · rw [if_pos h0] at h; exact Except.noConfusion h
    · rw [if_neg h0] at h
      cases hc : findCard s cid with
      | none => simp only [hc] at h; exact Except.noConfusion h
      | some card =>
        simp only [hc] at h
        by_cases h1 : card.merchantId ≠ mid
        · rw [if_pos h1] at h; exact Except.noConfusion h
        · rw [if_neg h1] at h
          by_cases h2 : a = 0
          · rw [if_pos h2] at h; exact Except.noConfusion h
          · rw [if_neg h2] at h
            by_cases h3 : card.currentBalance + a < 0
            · rw [if_pos h3] at h; exact Except.noConfusion h
            · rw [if_neg h3] at h
              by_cases h4 : card.currentBalance + a > merchant.maxCardBalanceEff
              · rw [if_pos h4] at h; exact Except.noConfusion h
              · rw [if_neg h4] at h
                exact ⟨card, rfl, (Except.ok.inj h).symm⟩

theorem refund_ok (s : LedgerState) (now : Int) (mid tid : Nat)
    (r : LedgerState × Transaction) (h : refund s now mid tid = .ok r) :
    ∃ origTxn card, findTxn s tid = some origTxn ∧
      origTxn.ttype = TxnType.redeem ∧
      ((s.txns.filter (fun t => t.cardId == origTxn.cardId)).any
        (fun t => decide (t.ttype = TxnType.refund ∧
          t.linkedTransactionId = some tid))) = false ∧
      findCard s origTxn.cardId = some card ∧
      r = recordTransaction s now card .refund origTxn.amount
        (card.currentBalance + origTxn.amount) none (some tid) := by
  simp only [refund] at h
  cases hm : findMerchant s mid with
  | none => simp only [hm] at h; exact Except.noConfusion h
  | some merchant =>
    simp only [hm] at h
    cases hT : findTxn s tid with
    | none => simp only [hT] at h; exact Except.noConfusion h
    | some origTxn =>
      simp only [hT] at h
      by_cases h1 : origTxn.merchantId ≠ mid
      · rw [if_pos h1] at h; exact Except.noConfusion h
      · rw [if_neg h1] at h
        by_cases h2 : origTxn.ttype ≠ TxnType.redeem
        · rw [if_pos h2] at h; exact Except.noConfusion h
        · rw [if_neg h2] at h
          by_cases h3 : ((s.txns.filter (fun t => t.cardId == origTxn.cardId)).any
              (fun t => decide (t.ttype = TxnType.refund ∧
                t.linkedTransactionId = some tid))) = true
          · rw [if_pos h3] at h; exact Except.noConfusion h
          · rw [if_neg h3] at h
            cases hc : findCard s origTxn.cardId with
            | none => simp only [hc] at h; exact Except.noConfusion h
            | some card =>
              simp only [hc] at h
              by_cases h4 : card.currentBalance + origTxn.amount >
                  merchant.maxCardBalanceEff
              · rw [if_pos h4] at h; exact Except.noConfusion h
              · rw [if_neg h4] at h
                exact ⟨origTxn, card, rfl, not_not.mp h2,
                  Bool.eq_false_iff.mpr h3, hc, (Except.ok.inj h).symm⟩

theorem createSingle_ok (s : LedgerState) (now : Int) (mid : Nat) (bal : Int)
    (ch : Nat) (th : Option Nat) (ex : Option Int) (r : LedgerState × Card)
    (h : createSingle s now mid bal ch th ex = .ok r) :
    ∃ merchant, findMerchant s mid = some merchant ∧
      r = createSingle.createSingleInsert s now mid bal ch th ex merchant := by
  simp only [createSingle] at h
  cases hm : findMerchant s mid with
  | none => simp only [hm] at h; exact Except.noConfusion h
  | some merchant =>
    simp only [hm] at h
    by_cases h0 : bal < 0
    · rw [if_pos h0] at h; exact Except.noConfusion h
    · rw [if_neg h0] at h
      cases hset : merchant.settings.bind MerchantSettings.maxCardBalance with
      | none =>
        simp only [hset] at h
        exact ⟨merchant, rfl, (Except.ok.inj h).symm⟩
      | some maxBalance =>
        simp only [hset] at h
        by_cases h1 : bal > maxBalance
        · rw [if_pos h1] at h; exact Except.noConfusion h
        · rw [if_neg h1] at h
          exact ⟨merchant, rfl, (Except.ok.inj h).symm⟩

theorem transfer_ok (s : LedgerState) (now : Int) (mid fid tid : Nat) (a : Int)
    (r : LedgerState × Transaction × Transaction)
    (h : transfer s now mid fid tid a = .ok r) :
    ∃ fromCard toCard, findCard s fid = some fromCard ∧
      findCard s tid = some toCard ∧ fid ≠ tid ∧
      r = transfer.transferCommit s now mid fromCard toCard a := by
  simp only [transfer] at h
  cases hm : findMerchant s mid with
  | none => simp only [hm] at h; exact Except.noConfusion h
  | some merchant =>
    simp only [hm] at h
    by_cases h0 : fid = tid
    · rw [if_pos h0] at h; exact Except.noConfusion h
    · rw [if_neg h0] at h
      cases hf : findCard s fid with
      | none => simp only [hf] at h; exact Except.noConfusion h
      | some fromCard =>
        simp only [hf] at h
        by_cases h1 : fromCard.merchantId ≠ mid
        · rw [if_pos h1] at h; exact Except.noConfusion h
        · rw [if_neg h1] at h
          cases ht : findCard s tid with
          | none => simp only [ht] at h; exact Except.noConfusion h
          | some toCard =>
            simp only [ht] at h
            by_cases h2 : toCard.merchantId ≠ mid
            · rw [if_pos h2] at h; exact Except.noConfusion h
            · rw [if_neg h2] at h
              cases hv1 : validateCardUsable fromCard now with
              | error e => simp only [hv1] at h; exact Except.noConfusion h
              | ok u =>
                simp only [hv1] at h
                cases hv2 : validateCardUsable toCard now with
                | error e => simp only [hv2] at h; exact Except.noConfusion h
                | ok u2 =>
                  simp only [hv2] at h
                  by_cases h3 : a ≤ 0
                  · rw [if_pos h3] at h; exact Except.noConfusion h
                  · rw [if_neg h3] at h
                    by_cases h4 : a > fromCard.currentBalance
                    · rw [if_pos h4] at h; exact Except.noConfusion h
                    · rw [if_neg h4] at h
                      by_cases h5 : toCard.currentBalance + a >
                          merchant.maxCardBalanceEff
                      · rw [if_pos h5] at h; exact Except.noConfusion h
                      · rw [if_neg h5] at h
                        exact ⟨fromCard, toCard, rfl, rfl, h0,
                          (Except.ok.inj h).symm⟩

theorem transferCommit_merchants (s : LedgerState) (now : Int) (mid : Nat)
    (fromCard toCard : Card) (a : Int) :
    (transfer.transferCommit s now mid fromCard toCard a).1.merchants =
      s.merchants := rfl

theorem transferCommit_nextCardId (s : LedgerState) (now : Int) (mid : Nat)
    (fromCard toCard : Card) (a : Int) :
    (transfer.transferCommit s now mid fromCard toCard a).1.nextCardId =
      s.nextCardId := rfl

theorem transferCommit_nextTxnId (s : LedgerState) (now : Int) (mid : Nat)
    (fromCard toCard : Card) (a : Int) :
    (transfer.transferCommit s now mid fromCard toCard a).1.nextTxnId =
      s.nextTxnId + 1 + 1 := rfl

theorem transferCommit_cards (s : LedgerState) (now : Int) (mid : Nat)
    (fromCard toCard : Card) (a : Int) :
    (transfer.transferCommit s now mid fromCard toCard a).1.cards =
      patchCards
        (patchCards s.cards fromCard.id (fun c => { c with currentBalance := fromCard.currentBalance - a, lastUsedAt := some now }))
        toCard.id
        (fun c => { c with currentBalance := toCard.currentBalance + a, lastUsedAt := some now }) := rfl

theorem transferCommit_out_id (s : LedgerState) (now : Int) (mid : Nat)
    (fromCard toCard : Card) (a : Int) :
    (transfer.transferCommit s now mid fromCard toCard a).2.1.id =
      s.nextTxnId := rfl

theorem transferCommit_out_cardId (s : LedgerState) (now : Int) (mid : Nat)
    (fromCard toCard : Card) (a : Int) :
    (transfer.transferCommit s now mid fromCard toCard a).2.1.cardId =
      fromCard.id := rfl

theorem transferCommit_out_ttype (s : LedgerState) (now : Int) (mid : Nat)
    (fromCard toCard : Card) (a : Int) :
    (transfer.transferCommit s now mid fromCard toCard a).2.1.ttype =
      TxnType.transfer_out := rfl

theorem transferCommit_out_before (s : LedgerState) (now : Int) (mid : Nat)
    (fromCard toCard : Card) (a : Int) :
    (transfer.transferCommit s now mid fromCard toCard a).2.1.balanceBefore =
      fromCard.currentBalance := rfl

theorem transferCommit_out_after (s : LedgerState) (now : Int) (mid : Nat)
    (fromCard toCard : Card) (a : Int) :
    (transfer.transferCommit s now mid fromCard toCard a).2.1.balanceAfter =
      fromCard.currentBalance - a := rfl

theorem transferCommit_out_signed (s : LedgerState) (now : Int) (mid : Nat)
    (fromCard toCard : Card) (a : Int) :
    signedAmount (transfer.transferCommit s now mid fromCard toCard a).2.1 =
      -a := rfl

theorem transferCommit_in_id (s : LedgerState) (now : Int) (mid : Nat)
    (fromCard toCard : Card) (a : Int) :
    (transfer.transferCommit s now mid fromCard toCard a).2.2.id =
      s.nextTxnId + 1 := rfl

theorem transferCommit_in_cardId (s : LedgerState) (now : Int) (mid : Nat)
    (fromCard toCard : Card) (a : Int) :
    (transfer.transferCommit s now mid fromCard toCard a).2.2.cardId =
      toCard.id := rfl

theorem transferCommit_in_ttype (s : LedgerState) (now : Int) (mid : Nat)
    (fromCard toCard : Card) (a : Int) :
    (transfer.transferCommit s now mid fromCard toCard a).2.2.ttype =
      TxnType.transfer_in := rfl

theorem transferCommit_in_before (s : LedgerState) (now : Int) (mid : Nat)
    (fromCard toCard : Card) (a : Int) :
    (transfer.transferCommit s now mid fromCard toCard a).2.2.balanceBefore =
      toCard.currentBalance := rfl

theorem transferCommit_in_after (s : LedgerState) (now : Int) (mid : Nat)
    (fromCard toCard : Card) (a : Int) :
    (transfer.transferCommit s now mid fromCard toCard a).2.2.balanceAfter =
      toCard.currentBalance + a := rfl

theorem transferCommit_in_signed (s : LedgerState) (now : Int) (mid : Nat)
    (fromCard toCard : Card) (a : Int) :
    signedAmount (transfer.transferCommit s now mid fromCard toCard a).2.2 =
      a := rfl

theorem transferCommit_txns (s : LedgerState) (now : Int) (mid : Nat)
    (fromCard toCard : Card) (a : Int)
    (hlt : ∀ t ∈ s.txns, t.id < s.nextTxnId) :
    (transfer.transferCommit s now mid fromCard toCard a).1.txns =
      s.txns ++ [(transfer.transferCommit s now mid fromCard toCard a).2.1,
        (transfer.transferCommit s now mid fromCard toCard a).2.2] := by
  show patchTxns _ _ _ = _
  rw [patchTxns_append, patchTxns_append,
    patchTxns_fresh s.txns s.nextTxnId _ (fun t ht => Nat.ne_of_lt (hlt t ht)),
    List.append_assoc]
  congr 1
  unfold patchTxns
  simp only [List.map_cons, List.map_nil]
  rw [if_pos trivial, if_neg (Nat.succ_ne_self s.nextTxnId)]
  rfl

theorem patchCards_two_mem (cards : List Card) (fid tid2 : Nat)
    (fd fi : Card → Card)
    (hfd : ∀ c, (fd c).id = c.id) (hne : fid ≠ tid2) (c : Card)
    (hc : c ∈ patchCards (patchCards cards fid fd) tid2 fi) :
    ∃ c0 ∈ cards, (c0.id = fid ∧ c = fd c0) ∨ (c0.id = tid2 ∧ c = fi c0) ∨
      (c0.id ≠ fid ∧ c0.id ≠ tid2 ∧ c = c0) := by
  unfold patchCards at hc
  rw [List.map_map] at hc
  obtain ⟨c0, hc0, hc0eq⟩ := List.mem_map.mp hc
  refine ⟨c0, hc0, ?_⟩
  by_cases hF : c0.id = fid
  · left
    refine ⟨hF, ?_⟩
    rw [← hc0eq]
    show (if (if c0.id = fid then fd c0 else c0).id = tid2
        then fi (if c0.id = fid then fd c0 else c0)
        else (if c0.id = fid then fd c0 else c0)) = fd c0
    rw [if_pos hF, if_neg (by rw [hfd c0, hF]; exact hne)]
  · by_cases hT2 : c0.id = tid2
    · right; left
      refine ⟨hT2, ?_⟩
      rw [← hc0eq]
      show (if (if c0.id = fid then fd c0 else c0).id = tid2
          then fi (if c0.id = fid then fd c0 else c0)
          else (if c0.id = fid then fd c0 else c0)) = fi c0
      rw [if_neg hF, if_pos hT2]
    · right; right
      refine ⟨hF, hT2, ?_⟩
      rw [← hc0eq]
      show (if (if c0.id = fid then fd c0 else c0).id = tid2
          then fi (if c0.id = fid then fd c0 else c0)
          else (if c0.id = fid then fd c0 else c0)) = c0
      rw [if_neg hF, if_neg hT2]

theorem cardBalance_transferCommit_from (s : LedgerState) (now : Int) (mid : Nat)
    (fromCard toCard : Card) (a : Int)
    (hfrom : findCard s fromCard.id = some fromCard)
    (hne : fromCard.id ≠ toCard.id) :
    cardBalance (transfer.transferCommit s now mid fromCard toCard a).1
        fromCard.id = some (fromCard.currentBalance - a) := by
  unfold cardBalance findCard
  rw [transferCommit_cards,
    find?_patchCards _ toCard.id fromCard.id _ (by intro q; rfl),
    find?_patchCards s.cards fromCard.id fromCard.id _ (by intro q; rfl)]
  unfold findCard at hfrom
  rw [hfrom, Option.map_some', Option.map_some', Option.map_some',
    if_pos rfl, if_neg hne]

theorem cardBalance_transferCommit_to (s : LedgerState) (now : Int) (mid : Nat)
    (fromCard toCard : Card) (a : Int)
    (hto : findCard s toCard.id = some toCard)
    (hne : fromCard.id ≠ toCard.id) :
    cardBalance (transfer.transferCommit s now mid fromCard toCard a).1
        toCard.id = some (toCard.currentBalance + a) := by
  unfold cardBalance findCard
  rw [transferCommit_cards,
    find?_patchCards _ toCard.id toCard.id _ (by intro q; rfl),
    find?_patchCards s.cards fromCard.id toCard.id _ (by intro q; rfl)]
  unfold findCard at hto
  rw [hto, Option.map_some', Option.map_some', Option.map_some',
    if_neg (show ¬ (toCard.id = fromCard.id) from fun hh => hne hh.symm),
    if_pos rfl]

/-- The write sequence of a validated transfer preserves the full ledger
invariant. -/
theorem transferCommit_preserves (s : LedgerState) (now : Int) (mid : Nat)
    (fromCard toCard : Card) (a : Int)
    (hInv : Inv s)
    (hfrom : findCard s fromCard.id = some fromCard)
    (hto : findCard s toCard.id = some toCard)
    (hne : fromCard.id ≠ toCard.id) :
    Inv (transfer.transferCommit s now mid fromCard toCard a).1 := by
  obtain ⟨⟨hnodupC, hcardsLt, hnodupT, htxnsLt, hcardIdLt, hrefLink⟩, hbalInv,
    hrefUniq⟩ := hInv
  have hmemF : fromCard ∈ s.cards := findCard_mem s fromCard.id fromCard hfrom
  have hmemT : toCard ∈ s.cards := findCard_mem s toCard.id toCard hto
  have hcardLtF := hcardsLt fromCard hmemF
  have hcardLtT := hcardsLt toCard hmemT
  have htxns := transferCommit_txns s now mid fromCard toCard a htxnsLt
  have hsplit : s.txns ++
      [(transfer.transferCommit s now mid fromCard toCard a).2.1,
        (transfer.transferCommit s now mid fromCard toCard a).2.2] =
      (s.txns ++ [(transfer.transferCommit s now mid fromCard toCard a).2.1]) ++
        [(transfer.transferCommit s now mid fromCard toCard a).2.2] := by simp
  refine ⟨⟨?_, ?_, ?_, ?_, ?_, ?_⟩, ?_, ?_⟩
  · -- card ids unchanged, hence still unique
    rw [transferCommit_cards,
      patchCards_map_id _ toCard.id _ (by intro q; rfl),
      patchCards_map_id s.cards fromCard.id _ (by intro q; rfl)]
    exact hnodupC
  · -- card ids below the unchanged counter
    intro c hc
    rw [transferCommit_nextCardId]
    have hid : c.id ∈
        (transfer.transferCommit s now mid fromCard toCard a).1.cards.map
          Card.id := List.mem_map_of_mem _ hc
    rw [transferCommit_cards,
      patchCards_map_id _ toCard.id _ (by intro q; rfl),
      patchCards_map_id s.cards fromCard.id _ (by intro q; rfl)] at hid
    obtain ⟨c0, hc0, hc0eq⟩ := List.mem_map.mp hid
    rw [← hc0eq]
    exact hcardsLt c0 hc0
  · -- transaction ids stay unique
    rw [htxns, List.map_append, List.nodup_append]
    refine ⟨hnodupT, ?_, ?_⟩
    · rw [List.map_cons, List.map_cons, List.map_nil, transferCommit_out_id,
        transferCommit_in_id, List.nodup_cons]
      refine ⟨?_, List.nodup_singleton _⟩
      intro hmem
      have := List.mem_singleton.mp hmem
      omega
    · intro x hx hx'
      obtain ⟨t0, ht0, ht0eq⟩ := List.mem_map.mp hx
      rw [List.map_cons, List.map_cons, List.map_nil, transferCommit_out_id,
        transferCommit_in_id] at hx'
      have hlt := htxnsLt t0 ht0
      rcases List.mem_cons.mp hx' with h | h
      · omega
      · have := List.mem_singleton.mp h
        omega
  · -- transaction ids below the bumped counter
    rw [htxns, transferCommit_nextTxnId]
    intro t ht
    rcases List.mem_append.mp ht with ht | ht
    · have := htxnsLt t ht
      omega
    · rcases List.mem_cons.mp ht with hteq | ht
      · rw [hteq, transferCommit_out_id]
        omega
      · have hteq := List.mem_singleton.mp ht
        rw [hteq, transferCommit_in_id]
        omega
  · -- transaction card ids below the card counter
    rw [htxns, transferCommit_nextCardId]
    intro t ht
    rcases List.mem_append.mp ht with ht | ht
    · exact hcardIdLt t ht
    · rcases List.mem_cons.mp ht with hteq | ht
      · rw [hteq, transferCommit_out_cardId]
        exact hcardLtF
      · have hteq := List.mem_singleton.mp ht
        rw [hteq, transferCommit_in_cardId]
        exact hcardLtT
  · -- neither transfer leg is a refund entry
    rw [htxns]
    intro t ht hty tid hlink
    rcases List.mem_append.mp ht with ht | ht
    · obtain ⟨o, ho, hoid, hocard⟩ := hrefLink t ht hty tid hlink
      exact ⟨o, List.mem_append_left _ ho, hoid, hocard⟩
    · rcases List.mem_cons.mp ht with hteq | ht
      · subst hteq
        rw [transferCommit_out_ttype] at hty
        exact TxnType.noConfusion hty
      · have hteq := List.mem_singleton.mp ht
        subst hteq
        rw [transferCommit_in_ttype] at hty
        exact TxnType.noConfusion hty
  · -- the balance invariant
    intro c hc
    rw [transferCommit_cards] at hc
    obtain ⟨c0, hc0, hcase⟩ :=
      patchCards_two_mem s.cards fromCard.id toCard.id _ _ (by intro q; rfl)
        hne c hc
    rcases hcase with ⟨hF, hceq⟩ | ⟨hT2, hceq⟩ | ⟨hF, hT2, hceq⟩
    · have hc0card : c0 = fromCard :=
        card_unique_of_nodup s fromCard hnodupC hmemF c0 hc0 hF
      subst hc0card
      subst hceq
      show c0.currentBalance - a = c0.initialBalance +
        cardLedgerSum
          (transfer.transferCommit s now mid c0 toCard a).1.txns c0.id
      rw [htxns, cardLedgerSum_two, transferCommit_out_cardId,
        transferCommit_in_cardId, transferCommit_out_signed,
        transferCommit_in_signed, if_pos rfl, if_neg (fun hh => hne hh.symm),
        hbalInv c0 hc0]
      ring
    · have hc0card : c0 = toCard :=
        card_unique_of_nodup s toCard hnodupC hmemT c0 hc0 hT2
      subst hc0card
      subst hceq
      show c0.currentBalance + a = c0.initialBalance +
        cardLedgerSum
          (transfer.transferCommit s now mid fromCard c0 a).1.txns c0.id
      rw [htxns, cardLedgerSum_two, transferCommit_out_cardId,
        transferCommit_in_cardId, transferCommit_out_signed,
        transferCommit_in_signed, if_neg hne, if_pos rfl, hbalInv c0 hc0]
      ring
    · subst hceq
      rw [htxns, cardLedgerSum_two, transferCommit_out_cardId,
        transferCommit_in_cardId, if_neg (fun hh => hF hh.symm),
        if_neg (fun hh => hT2 hh.symm), add_zero, add_zero]
      exact hbalInv c hc0
  · -- no new refund entries, so refund counts are unchanged
    intro tid
    unfold refundCount
    rw [htxns, hsplit, filterRefund_append_one, filterRefund_append_one,
      transferCommit_out_ttype, transferCommit_in_ttype,
      if_neg (by rintro ⟨h1, h2⟩; exact TxnType.noConfusion h1),
      if_neg (by rintro ⟨h1, h2⟩; exact TxnType.noConfusion h1),
      add_zero, add_zero]
    exact hrefUniq tid

/-- Both ledger entries of a transfer snapshot the stored balances before
the write and the balances written. -/
theorem transferCommit_snapshot (s : LedgerState) (now : Int) (mid : Nat)
    (fromCard toCard : Card) (a : Int)
    (hfrom : findCard s fromCard.id = some fromCard)
    (hto : findCard s toCard.id = some toCard)
    (hne : fromCard.id ≠ toCard.id)
    (hlt : ∀ t ∈ s.txns, t.id < s.nextTxnId) :
    ∀ t ∈ (transfer.transferCommit s now mid fromCard toCard a).1.txns,
      t ∉ s.txns →
      cardBalance s t.cardId = some t.balanceBefore ∧
      cardBalance (transfer.transferCommit s now mid fromCard toCard a).1
        t.cardId = some t.balanceAfter := by
  have htxns := transferCommit_txns s now mid fromCard toCard a hlt
  intro t ht hnew
  rw [htxns] at ht
  rcases List.mem_append.mp ht with ht | ht
  · exact absurd ht hnew
  rcases List.mem_cons.mp ht with hteq | ht
  · subst hteq
    constructor
    · rw [transferCommit_out_cardId, transferCommit_out_before]
      unfold cardBalance
      rw [hfrom]
      rfl
    · rw [transferCommit_out_cardId, transferCommit_out_after]
      exact cardBalance_transferCommit_from s now mid fromCard toCard a
        hfrom hne
  · have hteq := List.mem_singleton.mp ht
    subst hteq
    constructor
    · rw [transferCommit_in_cardId, transferCommit_in_before]
      unfold cardBalance
      rw [hto]
      rfl
    · rw [transferCommit_in_cardId, transferCommit_in_after]
      exact cardBalance_transferCommit_to s now mid fromCard toCard a hto hne

theorem createSingleInsert_txns (s : LedgerState) (now : Int) (mid : Nat)
    (bal : Int) (ch : Nat) (th : Option Nat) (ex : Option Int)
    (merchant : Merchant) :
    (createSingle.createSingleInsert s now mid bal ch th ex merchant).1.txns =
      s.txns := rfl

theorem createSingleInsert_cards (s : LedgerState) (now : Int) (mid : Nat)
    (bal : Int) (ch : Nat) (th : Option Nat) (ex : Option Int)
    (merchant : Merchant) :
    (createSingle.createSingleInsert s now mid bal ch th ex merchant).1.cards =
      s.cards ++
        [(createSingle.createSingleInsert s now mid bal ch th ex merchant).2] :=
  rfl

theorem createSingleInsert_nextCardId (s : LedgerState) (now : Int) (mid : Nat)
    (bal : Int) (ch : Nat) (th : Option Nat) (ex : Option Int)
    (merchant : Merchant) :
    (createSingle.createSingleInsert s now mid bal ch th ex
        merchant).1.nextCardId = s.nextCardId + 1 := rfl

theorem createSingleInsert_nextTxnId (s : LedgerState) (now : Int) (mid : Nat)
    (bal : Int) (ch : Nat) (th : Option Nat) (ex : Option Int)
    (merchant : Merchant) :
    (createSingle.createSingleInsert s now mid bal ch th ex
        merchant).1.nextTxnId = s.nextTxnId := rfl

theorem createSingleInsert_snd_id (s : LedgerState) (now : Int) (mid : Nat)
    (bal : Int) (ch : Nat) (th : Option Nat) (ex : Option Int)
    (merchant : Merchant) :
    (createSingle.createSingleInsert s now mid bal ch th ex merchant).2.id =
      s.nextCardId := rfl

theorem createSingleInsert_snd_initial (s : LedgerState) (now : Int) (mid : Nat)
    (bal : Int) (ch : Nat) (th : Option Nat) (ex : Option Int)
    (merchant : Merchant) :
    (createSingle.createSingleInsert s now mid bal ch th ex
        merchant).2.initialBalance = bal := rfl

theorem createSingleInsert_snd_current (s : LedgerState) (now : Int) (mid : Nat)
    (bal : Int) (ch : Nat) (th : Option Nat) (ex : Option Int)
    (merchant : Merchant) :
    (createSingle.createSingleInsert s now mid bal ch th ex
        merchant).2.currentBalance = bal := rfl

/-- Inserting a fresh card with `currentBalance = initialBalance`
preserves the full ledger invariant. -/
theorem createSingleInsert_preserves (s : LedgerState) (now : Int) (mid : Nat)
    (bal : Int) (ch : Nat) (th : Option Nat) (ex : Option Int)
    (merchant : Merchant) (hInv : Inv s) :
    Inv (createSingle.createSingleInsert s now mid bal ch th ex merchant).1 := by
  obtain ⟨⟨hnodupC, hcardsLt, hnodupT, htxnsLt, hcardIdLt, hrefLink⟩, hbalInv,
    hrefUniq⟩ := hInv
  refine ⟨⟨?_, ?_, ?_, ?_, ?_, ?_⟩, ?_, ?_⟩
  · rw [createSingleInsert_cards, List.map_append, List.nodup_append]
    refine ⟨hnodupC, by simp, ?_⟩
    intro x hx hx'
    obtain ⟨c0, hc0, hc0eq⟩ := List.mem_map.mp hx
    have hxval : x = s.nextCardId := by
      simpa [createSingleInsert_snd_id] using hx'
    have := hcardsLt c0 hc0
    omega
  · rw [createSingleInsert_cards, createSingleInsert_nextCardId]
    intro c hc
    rcases List.mem_append.mp hc with hc | hc
    · have := hcardsLt c hc
      omega
    · have hceq := List.mem_singleton.mp hc
      rw [hceq, createSingleInsert_snd_id]
      omega
  · rw [createSingleInsert_txns]
    exact hnodupT
  · rw [createSingleInsert_txns, createSingleInsert_nextTxnId]
    exact htxnsLt
  · rw [createSingleInsert_txns, createSingleInsert_nextCardId]
    intro t ht
    have := hcardIdLt t ht
    omega
  · rw [createSingleInsert_txns]
    exact hrefLink
  · intro c hc
    rw [createSingleInsert_cards] at hc
    rw [createSingleInsert_txns]
    rcases List.mem_append.mp hc with hc | hc
    · exact hbalInv c hc
    · have hceq := List.mem_singleton.mp hc
      subst hceq
      rw [createSingleInsert_snd_current, createSingleInsert_snd_initial,
        createSingleInsert_snd_id,
        cardLedgerSum_fresh s.txns s.nextCardId
          (fun t ht => Nat.ne_of_lt (hcardIdLt t ht)), add_zero]
  · intro tid
    exact hrefUniq tid

theorem fst_eq_of_pair_eq {A B : Type} {x : A} {y : B} {p : A × B}
    (h : (x, y) = p) : x = p.1 := congrArg Prod.fst h

/-- Every successful operation preserves the combined ledger invariant. -/
theorem applyOp_preserves_inv (s : LedgerState) (now : Int) (op : LedgerOp)
    (s2 : LedgerState) (hInv : Inv s) (h : applyOp s now op = .ok s2) :
    Inv s2 := by
  cases op with
  | createCard mid bal ch th ex =>
    simp only [applyOp] at h
    cases hcs : createSingle s now mid bal ch th ex with
    | error e => simp only [hcs] at h; exact Except.noConfusion h
    | ok r =>
      obtain ⟨s3, c⟩ := r
      simp only [hcs] at h
      obtain rfl : s3 = s2 := Except.ok.inj h
      obtain ⟨merchant, hm, hr⟩ := createSingle_ok s now mid bal ch th ex _ hcs
      rw [fst_eq_of_pair_eq hr]
      exact createSingleInsert_preserves s now mid bal ch th ex merchant hInv
  | load mid cid a =>
    simp only [applyOp] at h
    cases hl : load s now mid cid a with
    | error e => simp only [hl] at h; exact Except.noConfusion h
    | ok r =>
      obtain ⟨s3, txn⟩ := r
      simp only [hl] at h
      obtain rfl : s3 = s2 := Except.ok.inj h
      obtain ⟨card, hc, hr⟩ := load_ok s now mid cid a _ hl
      rw [fst_eq_of_pair_eq hr]
      have hfind : findCard s card.id = some card := by
        rw [findCard_id s cid card hc]; exact hc
      exact recordTransaction_preserves s now card .load a
        (card.currentBalance + a) none none hInv hfind rfl
        (fun _ => rfl) (fun hty => TxnType.noConfusion hty)
  | redeem mid cid a =>
    simp only [applyOp] at h
    cases hl : redeem s now mid cid a with
    | error e => simp only [hl] at h; exact Except.noConfusion h
    | ok r =>
      obtain ⟨s3, txn⟩ := r
      simp only [hl] at h
      obtain rfl : s3 = s2 := Except.ok.inj h
      obtain ⟨card, hc, hr⟩ := redeem_ok s now mid cid a _ hl
      rw [fst_eq_of_pair_eq hr]
      have hfind : findCard s card.id = some card := by
        rw [findCard_id s cid card hc]; exact hc
      exact recordTransaction_preserves s now card .redeem a
        (card.currentBalance - a) (some .manual) none hInv hfind
        (by show card.currentBalance - a = card.currentBalance + -a; ring)
        (fun _ => rfl) (fun hty => TxnType.noConfusion hty)
  | redeemByCode mid ch a =>
    simp only [applyOp] at h
    cases hl : redeemByCode s now mid ch a with
    | error e => simp only [hl] at h; exact Except.noConfusion h
    | ok r =>
      obtain ⟨s3, txn⟩ := r
      simp only [hl] at h
      obtain rfl : s3 = s2 := Except.ok.inj h
      obtain ⟨card, hmem, hr⟩ := redeemByCode_ok s now mid ch a _ hl
      rw [fst_eq_of_pair_eq hr]
      have hfind : findCard s card.id = some card :=
        findCard_of_mem s card hInv.1.1 hmem
      exact recordTransaction_preserves s now card .redeem a
        (card.currentBalance - a) (some .code) none hInv hfind
        (by show card.currentBalance - a = card.currentBalance + -a; ring)
        (fun _ => rfl) (fun hty => TxnType.noConfusion hty)
  | redeemByTrackData mid th a =>
    simp only [applyOp] at h
    cases hl : redeemByTrackData s now mid th a with
    | error e => simp only [hl] at h; exact Except.noConfusion h
    | ok r =>
      obtain ⟨s3, txn⟩ := r
      simp only [hl] at h
      obtain rfl : s3 = s2 := Except.ok.inj h
      obtain ⟨card, hmem, hr⟩ := redeemByTrackData_ok s now mid th a _ hl
      rw [fst_eq_of_pair_eq hr]
      have hfind : findCard s card.id = some card :=
        findCard_of_mem s card hInv.1.1 hmem
      exact recordTransaction_preserves s now card .redeem a
        (card.currentBalance - a) (some .track_data) none hInv hfind
        (by show card.currentBalance - a = card.currentBalance + -a; ring)
        (fun _ => rfl) (fun hty => TxnType.noConfusion hty)
  | transfer mid fid tid2 a =>
    simp only [applyOp] at h
    cases htr : transfer s now mid fid tid2 a with
    | error e => simp only [htr] at h; exact Except.noConfusion h
    | ok r =>
      obtain ⟨s3, outT, inT⟩ := r
      simp only [htr] at h
      obtain rfl : s3 = s2 := Except.ok.inj h
      obtain ⟨fromCard, toCard, hf, ht2, hne0, hr⟩ :=
        transfer_ok s now mid fid tid2 a _ htr
      rw [fst_eq_of_pair_eq hr]
      have hfid := findCard_id s fid fromCard hf
      have htid := findCard_id s tid2 toCard ht2
      have hfrom : findCard s fromCard.id = some fromCard := by
        rw [hfid]; exact hf
      have hto : findCard s toCard.id = some toCard := by
        rw [htid]; exact ht2
      have hne : fromCard.id ≠ toCard.id := by
        rw [hfid, htid]; exact hne0
      exact transferCommit_preserves s now mid fromCard toCard a hInv
        hfrom hto hne
  | adjust role mid cid a =>
    simp only [applyOp] at h
    cases hl : adjust s now role mid cid a with
    | error e => simp only [hl] at h; exact Except.noConfusion h
    | ok r =>
      obtain ⟨s3, txn⟩ := r
      simp only [hl] at h
      obtain rfl : s3 = s2 := Except.ok.inj h
      obtain ⟨card, hc, hr⟩ := adjust_ok s now role mid cid a _ hl
      rw [fst_eq_of_pair_eq hr]
      have hfind : findCard s card.id = some card := by
        rw [findCard_id s cid card hc]; exact hc
      exact recordTransaction_preserves s now card .adjust a
        (card.currentBalance + a) none none hInv hfind rfl
        (fun _ => rfl) (fun hty => TxnType.noConfusion hty)
  | refund mid tid =>
    simp only [applyOp] at h
    cases hrf : refund s now mid tid with
    | error e => simp only [hrf] at h; exact Except.noConfusion h
    | ok r =>
      obtain ⟨s3, txn⟩ := r
      simp only [hrf] at h
      obtain rfl : s3 = s2 := Except.ok.inj h
      obtain ⟨origTxn, card, hT, hty, hguard, hc, hr⟩ :=
        refund_ok s now mid tid _ hrf
      rw [fst_eq_of_pair_eq hr]
      have hcid : card.id = origTxn.cardId := findCard_id s origTxn.cardId card hc
      have hfind : findCard s card.id = some card := by
        rw [hcid]; exact hc
      have hzero : refundCount s tid = 0 :=
        refund_guard_refundCount s origTxn tid hInv.1.2.2.1
          hInv.1.2.2.2.2.2 hT hguard
      exact recordTransaction_preserves s now card .refund origTxn.amount
        (card.currentBalance + origTxn.amount) none (some tid) hInv hfind rfl
        (fun hne => absurd rfl hne)
        (fun _ => ⟨tid, rfl, hzero, origTxn, findTxn_mem s tid origTxn hT,
          findTxn_id s tid origTxn hT, hcid.symm⟩)

/-- Every ledger entry inserted by a successful operation snapshots the
stored balance before the write and the balance written. -/
theorem applyOp_snapshots (s : LedgerState) (now : Int) (op : LedgerOp)
    (s2 : LedgerState) (hInv : Inv s) (h : applyOp s now op = .ok s2) :
    ∀ t ∈ s2.txns, t ∉ s.txns →
      cardBalance s t.cardId = some t.balanceBefore ∧
      cardBalance s2 t.cardId = some t.balanceAfter := by
  cases op with
  | createCard mid bal ch th ex =>
    simp only [applyOp] at h
    cases hcs : createSingle s now mid bal ch th ex with
    | error e => simp only [hcs] at h; exact Except.noConfusion h
    | ok r =>
      obtain ⟨s3, c⟩ := r
      simp only [hcs] at h
      obtain rfl : s3 = s2 := Except.ok.inj h
      obtain ⟨merchant, hm, hr⟩ := createSingle_ok s now mid bal ch th ex _ hcs
      rw [fst_eq_of_pair_eq hr, createSingleInsert_txns]
      intro t ht hnew
      exact absurd ht hnew
  | load mid cid a =>
    simp only [applyOp] at h
    cases hl : load s now mid cid a with
    | error e => simp only [hl] at h; exact Except.noConfusion h
    | ok r =>
      obtain ⟨s3, txn⟩ := r
      simp only [hl] at h
      obtain rfl : s3 = s2 := Except.ok.inj h
      obtain ⟨card, hc, hr⟩ := load_ok s now mid cid a _ hl
      rw [fst_eq_of_pair_eq hr]
      have hfind : findCard s card.id = some card := by
        rw [findCard_id s cid card hc]; exact hc
      exact recordTransaction_snapshot s now card .load a
        (card.currentBalance + a) none none hfind
  | redeem mid cid a =>
    simp only [applyOp] at h
    cases hl : redeem s now mid cid a with
    | error e => simp only [hl] at h; exact Except.noConfusion h
    | ok r =>
      obtain ⟨s3, txn⟩ := r
      simp only [hl] at h
      obtain rfl : s3 = s2 := Except.ok.inj h
      obtain ⟨card, hc, hr⟩ := redeem_ok s now mid cid a _ hl
      rw [fst_eq_of_pair_eq hr]
      have hfind : findCard s card.id = some card := by
        rw [findCard_id s cid card hc]; exact hc
      exact recordTransaction_snapshot s now card .redeem a
        (card.currentBalance - a) (some .manual) none hfind
  | redeemByCode mid ch a =>
    simp only [applyOp] at h
    cases hl : redeemByCode s now mid ch a with
    | error e => simp only [hl] at h; exact Except.noConfusion h
    | ok r =>
      obtain ⟨s3, txn⟩ := r
      simp only [hl] at h
      obtain rfl : s3 = s2 := Except.ok.inj h
      obtain ⟨card, hmem, hr⟩ := redeemByCode_ok s now mid ch a _ hl
      rw [fst_eq_of_pair_eq hr]
      have hfind : findCard s card.id = some card :=
        findCard_of_mem s card hInv.1.1 hmem
      exact recordTransaction_snapshot s now card .redeem a
        (card.currentBalance - a) (some .code) none hfind
  | redeemByTrackData mid th a =>
    simp only [applyOp] at h
    cases hl : redeemByTrackData s now mid th a with
    | error e => simp only [hl] at h; exact Except.noConfusion h
    | ok r =>
      obtain ⟨s3, txn⟩ := r
      simp only [hl] at h
      obtain rfl : s3 = s2 := Except.ok.inj h
      obtain ⟨card, hmem, hr⟩ := redeemByTrackData_ok s now mid th a _ hl
      rw [fst_eq_of_pair_eq hr]
      have hfind : findCard s card.id = some card :=
        findCard_of_mem s card hInv.1.1 hmem
      exact recordTransaction_snapshot s now card .redeem a
        (card.currentBalance - a) (some .track_data) none hfind
  | transfer mid fid tid2 a =>
    simp only [applyOp] at h
    cases htr : transfer s now mid fid tid2 a with
    | error e => simp only [htr] at h; exact Except.noConfusion h
    | ok r =>
      obtain ⟨s3, outT, inT⟩ := r
      simp only [htr] at h
      obtain rfl : s3 = s2 := Except.ok.inj h
      obtain ⟨fromCard, toCard, hf, ht2, hne0, hr⟩ :=
        transfer_ok s now mid fid tid2 a _ htr
      rw [fst_eq_of_pair_eq hr]
      have hfid := findCard_id s fid fromCard hf
      have htid := findCard_id s tid2 toCard ht2
      have hfrom : findCard s fromCard.id = some fromCard := by
        rw [hfid]; exact hf
      have hto : findCard s toCard.id = some toCard := by
        rw [htid]; exact ht2
      have hne : fromCard.id ≠ toCard.id := by
        rw [hfid, htid]; exact hne0
      exact transferCommit_snapshot s now mid fromCard toCard a hfrom hto hne
        hInv.1.2.2.2.1
  | adjust role mid cid a =>
    simp only [applyOp] at h
    cases hl : adjust s now role mid cid a with
    | error e => simp only [hl] at h; exact Except.noConfusion h
    | ok r =>
      obtain ⟨s3, txn⟩ := r
      simp only [hl] at h
      obtain rfl : s3 = s2 := Except.ok.inj h
      obtain ⟨card, hc, hr⟩ := adjust_ok s now role mid cid a _ hl
      rw [fst_eq_of_pair_eq hr]
      have hfind : findCard s card.id = some card := by
        rw [findCard_id s cid card hc]; exact hc
      exact recordTransaction_snapshot s now card .adjust a
        (card.currentBalance + a) none none hfind
  | refund mid tid =>
    simp only [applyOp] at h
    cases hrf : refund s now mid tid with
    | error e => simp only [hrf] at h; exact Except.noConfusion h
    | ok r =>
      obtain ⟨s3, txn⟩ := r
      simp only [hrf] at h
      obtain rfl : s3 = s2 := Except.ok.inj h
      obtain ⟨origTxn, card, hT, hty, hguard, hc, hr⟩ :=
        refund_ok s now mid tid _ hrf
      rw [fst_eq_of_pair_eq hr]
      have hcid : card.id = origTxn.cardId := findCard_id s origTxn.cardId card hc
      have hfind : findCard s card.id = some card := by
        rw [hcid]; exact hc
      exact recordTransaction_snapshot s now card .refund origTxn.amount
        (card.currentBalance + origTxn.amount) none (some tid) hfind

/-- A committed mutation (success replaces the state, a thrown error
rolls back) preserves the combined ledger invariant. -/
theorem commitOp_preserves_inv (s : LedgerState) (now : Int) (op : LedgerOp)
    (h : Inv s) : Inv (commitOp s now op) := by
  unfold commitOp
  cases ha : applyOp s now op with
  | error e => simp only [ha]; exact h
  | ok s2 =>
    simp only [ha]
    exact applyOp_preserves_inv s now op s2 h ha

/-- The combined ledger invariant is preserved by every committed
sequence of operations. -/
theorem runOps_preserves_inv (ops : List (Int × LedgerOp)) :
    ∀ s : LedgerState, Inv s → Inv (runOps s ops) := by
  induction ops with
  | nil => intro s h; exact h
  | cons p rest ih =>
    intro s h
    have hstep : runOps s (p :: rest) = runOps (commitOp s p.1 p.2) rest := rfl
    rw [hstep]
    exact ih _ (commitOp_preserves_inv s p.1 p.2 h)

theorem inv_sampleLedger : Inv sampleLedger := by
  refine ⟨by decide, by decide, ?_⟩
  intro tid
  simp [refundCount, sampleLedger]

theorem inv_refundLedger : Inv refundLedger := by
  refine ⟨by decide, by decide, ?_⟩
  intro tid
  have hnil : refundLedger.txns.filter (fun t => decide (t.ttype =
      TxnType.refund ∧ t.linkedTransactionId = some tid)) = [] := by
    rw [List.filter_eq_nil_iff]
    intro t ht hP
    have hP2 := of_decide_eq_true hP
    rcases List.mem_cons.mp ht with h | h
    · rw [h] at hP2
      exact TxnType.noConfusion hP2.1
    · have h2 := List.mem_singleton.mp h
      rw [h2] at hP2
      exact TxnType.noConfusion hP2.1
  unfold refundCount
  rw [hnil]
  exact Nat.zero_le 1

/-- C1: every card's stored `currentBalance` equals `initialBalance` plus
the signed sum of the committed transactions on that card, after any
committed sequence of operations starting from a state satisfying the
ledger invariant; and every transaction inserted by a successful
operation snapshots in `balanceBefore` the card's stored balance
immediately before the operation and in `balanceAfter` the balance
immediately after it. -/
theorem c1_balance_invariant_and_snapshots :
    (∀ (s : LedgerState) (ops : List (Int × LedgerOp)),
      Inv s → BalanceInvariant (runOps s ops)) ∧
    (∀ (s : LedgerState) (now : Int) (op : LedgerOp) (s2 : LedgerState),
      Inv s → applyOp s now op = .ok s2 →
      ∀ t ∈ s2.txns, t ∉ s.txns →
        cardBalance s t.cardId = some t.balanceBefore ∧
        cardBalance s2 t.cardId = some t.balanceAfter) := by
  constructor
  · intro s ops h
    exact (runOps_preserves_inv ops s h).2.1
  · intro s now op s2 h hok
    exact applyOp_snapshots s now op s2 h hok

/-- Witness for C1 on the worked scenario of the specification: the
invariant holds after running load, redeem, transfer, adjust and refund on
the sample ledger, and the refund's ledger entry snapshots the stored
balances around the write. -/
theorem c1_witness :
    BalanceInvariant (runOps sampleLedger sampleOps) ∧
    (∀ t ∈ (commitOp refundLedger 20 (LedgerOp.refund 0 1)).txns,
      t ∉ refundLedger.txns →
      cardBalance refundLedger t.cardId = some t.balanceBefore ∧
      cardBalance (commitOp refundLedger 20 (LedgerOp.refund 0 1)) t.cardId =
        some t.balanceAfter) :=
  ⟨c1_balance_invariant_and_snapshots.1 sampleLedger sampleOps inv_sampleLedger,
   c1_balance_invariant_and_snapshots.2 refundLedger 20 (LedgerOp.refund 0 1)
     (commitOp refundLedger 20 (LedgerOp.refund 0 1)) inv_refundLedger
     (by decide)⟩

/-- C3: under the ledger invariant, the first refund of a redeem
transaction `T` (same merchant, within the merchant's max-card-balance
cap) succeeds, appending exactly one `refund` entry linked to `T.id` of
exactly `T.amount` and raising the card's stored balance by that amount;
a second refund referencing the same `T` fails with `VALIDATION_ERROR`
and commits nothing, and across any further committed operations at most
one refund entry ever links to any transaction. -/
theorem c3_refund_idempotent (s : LedgerState) (now now2 : Int)
    (mid tid : Nat) (merchant : Merchant) (T : Transaction) (card : Card)
    (hInv : Inv s)
    (hm : findMerchant s mid = some merchant)
    (hT : findTxn s tid = some T)
    (hty : T.ttype = TxnType.redeem)
    (hTm : T.merchantId = mid)
    (hzero : refundCount s tid = 0)
    (hc : findCard s T.cardId = some card)
    (hcap : ¬ card.currentBalance + T.amount > merchant.maxCardBalanceEff) :
    ∃ r, refund s now mid tid = .ok r ∧
      r.1.txns = s.txns ++ [r.2] ∧
      r.2.ttype = TxnType.refund ∧
      r.2.linkedTransactionId = some tid ∧
      r.2.amount = T.amount ∧
      cardBalance r.1 T.cardId = some (card.currentBalance + T.amount) ∧
      refundCount r.1 tid = 1 ∧
      refund r.1 now2 mid tid = .error .VALIDATION_ERROR ∧
      commitOp r.1 now2 (.refund mid tid) = r.1 ∧
      ∀ ops, RefundUnique (runOps r.1 ops) := by
  have hcid : card.id = T.cardId := findCard_id s T.cardId card hc
  have hfind : findCard s card.id = some card := by
    rw [hcid]; exact hc
  have hguard : ((s.txns.filter (fun t => t.cardId == T.cardId)).any
      (fun t => decide (t.ttype = TxnType.refund ∧
        t.linkedTransactionId = some tid))) = false :=
    scan_false_of_refundCount_zero s T.cardId tid hzero
  have hok : refund s now mid tid = .ok (recordTransaction s now card .refund
      T.amount (card.currentBalance + T.amount) none (some tid)) := by
    simp only [refund, hm, hT]
    rw [if_neg (not_not_intro hTm), if_neg (not_not_intro hty),
      if_neg (by rw [hguard]; exact Bool.false_ne_true)]
    simp only [hc]
    rw [if_neg hcap]
  have hInv2 : Inv (recordTransaction s now card .refund T.amount
      (card.currentBalance + T.amount) none (some tid)).1 :=
    recordTransaction_preserves s now card .refund T.amount
      (card.currentBalance + T.amount) none (some tid) hInv hfind rfl
      (fun hne => absurd rfl hne)
      (fun _ => ⟨tid, rfl, hzero, T, findTxn_mem s tid T hT,
        findTxn_id s tid T hT, hcid.symm⟩)
  have hm2 : findMerchant (recordTransaction s now card .refund T.amount
      (card.currentBalance + T.amount) none (some tid)).1 mid =
      some merchant := hm
  have hT2 : findTxn (recordTransaction s now card .refund T.amount
      (card.currentBalance + T.amount) none (some tid)).1 tid = some T :=
    findTxn_record s now card .refund T.amount
      (card.currentBalance + T.amount) none (some tid) tid T hT
  have hscan : (((recordTransaction s now card .refund T.amount
        (card.currentBalance + T.amount) none (some tid)).1.txns.filter
      (fun t => t.cardId == T.cardId)).any
      (fun t => decide (t.ttype = TxnType.refund ∧
        t.linkedTransactionId = some tid))) = true := by
    rw [List.any_eq_true]
    refine ⟨(recordTransaction s now card .refund T.amount
      (card.currentBalance + T.amount) none (some tid)).2, ?_, ?_⟩
    · rw [List.mem_filter]
      constructor
      · rw [recordTransaction_txns]
        exact List.mem_append_right _ (List.mem_singleton.mpr rfl)
      · rw [recordTransaction_snd_cardId]
        exact beq_iff_eq.mpr hcid
    · exact decide_eq_true ⟨rfl, rfl⟩
  have hr2 : refund (recordTransaction s now card .refund T.amount
      (card.currentBalance + T.amount) none (some tid)).1 now2 mid tid =
      .error .VALIDATION_ERROR := by
    simp only [refund, hm2, hT2]
    rw [if_neg (not_not_intro hTm), if_neg (not_not_intro hty), if_pos hscan]
  refine ⟨recordTransaction s now card .refund T.amount
    (card.currentBalance + T.amount) none (some tid), hok,
    recordTransaction_txns s now card .refund T.amount
      (card.currentBalance + T.amount) none (some tid),
    rfl, rfl, rfl, ?_, ?_, hr2, ?_, ?_⟩
  · rw [← hcid]
    exact cardBalance_record_self s now card .refund T.amount
      (card.currentBalance + T.amount) none (some tid) hfind
  · rw [refundCount_record, hzero, if_pos ⟨rfl, rfl⟩]
  · unfold commitOp
    simp only [applyOp, hr2]
  · intro ops
    exact (runOps_preserves_inv ops _ hInv2).2.2

/-- Witness for C3 on the worked scenario: refunding the 1000-cent
redemption on the sample card succeeds once (balance 2000 → 3000) and a
second refund of the same transaction is rejected. -/
theorem c3_witness :
    ∃ r, refund refundLedger 20 0 1 = .ok r ∧
      r.1.txns = refundLedger.txns ++ [r.2] ∧
      r.2.ttype = TxnType.refund ∧
      r.2.linkedTransactionId = some 1 ∧
      r.2.amount = txnRedeem0.amount ∧
      cardBalance r.1 txnRedeem0.cardId =
        some (card0r.currentBalance + txnRedeem0.amount) ∧
      refundCount r.1 1 = 1 ∧
      refund r.1 21 0 1 = .error .VALIDATION_ERROR ∧
      commitOp r.1 21 (.refund 0 1) = r.1 ∧
      ∀ ops, RefundUnique (runOps r.1 ops) :=
  c3_refund_idempotent refundLedger 20 21 0 1 merchant0 txnRedeem0 card0r
    inv_refundLedger (by decide) (by decide) (by decide) (by decide)
    (by decide) (by decide) (by decide)

end Logif
